import Mathlib

/-
Verification of the two-phase generation pipeline and deterministic safety
validation engine of the adv-attack-simulation repository.

The embedding follows the Python source:
  src/src/models/enums.py, src/src/models/ability.py   (data model)
  src/src/config.py                                    (constants)
  src/src/layers/layer6_safety.py                      (SafetyValidator)
  src/src/layers/layer3_reasoning.py                   (ReasoningEngine)
  src/src/services/batch_generator.py                  (BatchGenerator)
  src/src/llm/base.py                                  (LLMClient retry)

External boundaries (Python stdlib `re`, `uuid`, `datetime`, the Neo4j
transport, the LLM provider and the wall clock) are passed in as explicit
parameters, so every definition is executable and claims can be settled on
concrete inputs.
-/

namespace AdvSim

-- ──────────────────────────────────────────────────────────────
-- Python string primitives used by the source
-- ──────────────────────────────────────────────────────────────

/-- Python `str.lower()` (ASCII-faithful; the source only lowercases
ASCII platform names and error strings). -/
def pyLower (s : String) : String :=
  String.mk (s.toList.map Char.toLower)

/-- Test whether the first list starts the second one (character lists). -/
def startsWithChars : List Char → List Char → Bool
  | [], _ => true
  | _ :: _, [] => false
  | a :: as, b :: bs => a == b && startsWithChars as bs

/-- Test whether the first list occurs contiguously inside the second. -/
def hasSubChars (needle : List Char) : List Char → Bool
  | [] => startsWithChars needle []
  | b :: bs => startsWithChars needle (b :: bs) || hasSubChars needle bs

/-- Python's substring test `needle in haystack`. -/
def strIn (needle haystack : String) : Bool :=
  hasSubChars needle.toList haystack.toList

/-- Python `s.startswith(pre)`. -/
def strStartsWith (s pre : String) : Bool :=
  startsWithChars pre.toList s.toList

/-- Python `s.endswith(suf)`. -/
def strEndsWith (s suf : String) : Bool :=
  startsWithChars suf.toList.reverse s.toList.reverse

/-- Characters stripped by Python `str.strip()` / `str.rstrip()`
(ASCII whitespace set). -/
def isPyWhitespace (c : Char) : Bool :=
  c == ' ' || c == '\t' || c == '\n' || c == '\r' || c == '\x0b' || c == '\x0c'

/-- Python `str.strip()`. -/
def pyStrip (s : String) : String :=
  String.mk (((s.toList.dropWhile isPyWhitespace).reverse.dropWhile isPyWhitespace).reverse)

/-- Python `str.rstrip()`. -/
def pyRstrip (s : String) : String :=
  String.mk ((s.toList.reverse.dropWhile isPyWhitespace).reverse)

/-- Python `s.count(c)` for a single-character needle. -/
def countChar (s : String) (c : Char) : Nat :=
  s.toList.count c

/-- Python `str.split()` with no argument: split on whitespace runs,
dropping empty fields. -/
def pySplitWhitespace (s : String) : List String :=
  (s.toList.splitOnP isPyWhitespace).map String.mk |>.filter (fun t => t ≠ "")

/-- Split a character list at every occurrence of `c`. -/
def splitOnChar (c : Char) : List Char → List (List Char)
  | [] => [[]]
  | x :: xs =>
      let rest := splitOnChar c xs
      if x = c then [] :: rest
      else (x :: rest.headD []) :: rest.tail

/-- Python `str.splitlines()` (newline-faithful for the `\n`-separated
command strings the validator inspects). -/
def pySplitLines (s : String) : List String :=
  if s = "" then [] else (splitOnChar '\n' s.toList).map String.mk

/-- Python `s.rsplit(sep, 1)[-1]` for a one-character separator: the text
after the last occurrence of `c`. -/
def afterLast (c : Char) (s : String) : String :=
  String.mk ((s.toList.reverse.takeWhile (fun x => x ≠ c)).reverse)

/-- Python `dict.get(key)` over an insertion-ordered association list. -/
def lookupAssoc (table : List (String × α)) (key : String) : Option α :=
  (table.find? (fun kv => kv.1 == key)).map (fun kv => kv.2)

/-- Python `dict.get(key, default)`. -/
def lookupAssocD (table : List (String × α)) (key : String) (dflt : α) : α :=
  (lookupAssoc table key).getD dflt

-- ──────────────────────────────────────────────────────────────
-- Data model (src/src/models/enums.py, src/src/models/ability.py)
-- ──────────────────────────────────────────────────────────────

/-- Enum `ApprovalStatus` of src/src/models/enums.py. -/
inductive ApprovalStatus
  | PENDING
  | APPROVED
  | REJECTED
  | EXECUTABLE
  | BLOCKED
  deriving DecidableEq, Repr

/-- String value of an `ApprovalStatus` member (Python `str`-enum `.value`). -/
def ApprovalStatus.value : ApprovalStatus → String
  | .PENDING => "PENDING"
  | .APPROVED => "APPROVED"
  | .REJECTED => "REJECTED"
  | .EXECUTABLE => "EXECUTABLE"
  | .BLOCKED => "BLOCKED"

/-- Enum `Platform` of src/src/models/enums.py. -/
inductive Platform
  | windows
  | linux
  | macos
  | cloud_aws
  | cloud_azure
  | cloud_gcp
  deriving DecidableEq, Repr

/-- String value of a `Platform` member. -/
def Platform.value : Platform → String
  | .windows => "windows"
  | .linux => "linux"
  | .macos => "macos"
  | .cloud_aws => "cloud_aws"
  | .cloud_azure => "cloud_azure"
  | .cloud_gcp => "cloud_gcp"

/-- Enum `ExecutorType` of src/src/models/enums.py. -/
inductive ExecutorType
  | powershell
  | cmd
  | bash
  | zsh
  | python
  | sh
  | aws_cli
  | az_cli
  | gcloud_cli
  | curl
  deriving DecidableEq, Repr

/-- String value of an `ExecutorType` member. -/
def ExecutorType.value : ExecutorType → String
  | .powershell => "powershell"
  | .cmd => "cmd"
  | .bash => "bash"
  | .zsh => "zsh"
  | .python => "python"
  | .sh => "sh"
  | .aws_cli => "aws_cli"
  | .az_cli => "az_cli"
  | .gcloud_cli => "gcloud_cli"
  | .curl => "curl"

/-- All `ExecutorType.value` strings (`{e.value for e in ExecutorType}` in
`_check_executor_name_enum`). -/
def EXECUTOR_TYPE_VALUES : List String :=
  ["powershell", "cmd", "bash", "zsh", "python", "sh",
   "aws_cli", "az_cli", "gcloud_cli", "curl"]

/-- Enum `PrivilegeLevel` of src/src/models/enums.py. -/
inductive PrivilegeLevel
  | user
  | admin
  | system
  | root
  deriving DecidableEq, Repr

/-- Pydantic model `MitreMapping` (src/src/models/ability.py). -/
structure MitreMapping where
  tactic : String
  technique : String
  sub_technique : Option String := none
  deriving DecidableEq, Repr

/-- Pydantic model `Executor` (src/src/models/ability.py). The enum-typed
fields are validated by Pydantic, so they are enum members here. -/
structure Executor where
  name : ExecutorType
  platform : Platform
  privilege_required : PrivilegeLevel
  command : String
  payload_description : String
  cleanup_procedure : String
  deriving DecidableEq, Repr

/-- Pydantic model `CampaignUsage` (src/src/models/ability.py). -/
structure CampaignUsage where
  campaign_name : String
  first_seen : Option String := none
  last_seen : Option String := none
  attributed_groups : List String := []
  description_snippet : Option String := none
  deriving DecidableEq, Repr

/-- Pydantic model `ThreatIntelContext` (src/src/models/ability.py). -/
structure ThreatIntelContext where
  associated_groups : List String := []
  associated_tools : List String := []
  recent_campaigns : List CampaignUsage := []
  detection_guidance : Option String := none
  deriving DecidableEq, Repr

/-- Pydantic model `GenerationTrace` (src/src/models/ability.py). The
source stores tool calls as dicts and projects out `tc["name"]`; we keep
the projected names. -/
structure GenerationTrace where
  model : String
  tools_called : List String := []
  reasoning_steps : Nat := 0
  total_tokens : Nat := 0
  blocklist_version : String := "1.0.0"
  validation_warnings : List String := []
  deriving DecidableEq, Repr

/-- Enum `AttackCategory` of src/src/models/enums.py, kept as its string
value (the source normalizes `category.value if isinstance(...) else
str(category)` at every entry point). -/
structure Ability where
  id : String
  name : String
  description : String
  attack_category : String
  mitre_mapping : MitreMapping
  threat_intel_context : ThreatIntelContext
  executors : List Executor
  approval_status : ApprovalStatus := .PENDING
  created_by : String := "AI"
  simulation_only : Bool := true
  schema_version : String := "1.0"
  generated_at : String := ""
  agent_version : String := "0.1.0"
  generation_trace : Option GenerationTrace := none
  deriving DecidableEq, Repr

/-- Pydantic field constraint `executors: List[Executor] = Field(min_length=1)`
on `Ability` — the only non-typing constraint the schema imposes. Any
`Ability` produced by `generate(schema=Ability)` satisfies it. -/
def pydanticValid (a : Ability) : Bool :=
  1 ≤ a.executors.length

-- ──────────────────────────────────────────────────────────────
-- Configuration constants (src/src/config.py)
-- ──────────────────────────────────────────────────────────────

/-- Constant `SCHEMA_VERSION` of src/src/config.py. -/
def SCHEMA_VERSION : String := "1.0"

/-- Constant `AGENT_VERSION` of src/src/config.py. -/
def AGENT_VERSION : String := "0.1.0"

/-- Constant `BLOCKLIST_VERSION` of src/src/config.py. -/
def BLOCKLIST_VERSION : String := "1.0.0"

/-- Constant `LLM_MAX_RETRIES` of src/src/config.py. -/
def LLM_MAX_RETRIES : Nat := 3

/-- Constant `LLM_BASE_DELAY` of src/src/config.py (seconds). -/
def LLM_BASE_DELAY : ℚ := 1

/-- Constant `LLM_MAX_DELAY` of src/src/config.py (seconds). -/
def LLM_MAX_DELAY : ℚ := 30

/-- Constant `LLM_BACKOFF_FACTOR` of src/src/config.py. -/
def LLM_BACKOFF_FACTOR : ℚ := 2

/-- Constant `MIN_ABILITY_NAME_LEN` of src/src/config.py. -/
def MIN_ABILITY_NAME_LEN : Nat := 5

/-- Constant `MIN_ABILITY_DESC_LEN` of src/src/config.py. -/
def MIN_ABILITY_DESC_LEN : Nat := 50

/-- Constant `COMMAND_BLOCKLIST` of src/src/config.py. Every entry in the
source list is commented out, so the configured blocklist is empty. -/
def COMMAND_BLOCKLIST : List String := []

/-- Table `CATEGORY_TO_TACTICS` of src/src/config.py. -/
def CATEGORY_TO_TACTICS : List (String × List String) :=
  [("credential_access",          ["credential-access"]),
   ("privilege_escalation",       ["privilege-escalation"]),
   ("persistence",                ["persistence"]),
   ("lateral_movement",           ["lateral-movement"]),
   ("defense_evasion",            ["defense-evasion"]),
   ("command_and_control",        ["command-and-control"]),
   ("discovery",                  ["discovery"]),
   ("collection",                 ["collection"]),
   ("exfiltration",               ["exfiltration"]),
   ("cloud_iam_abuse",            ["credential-access", "privilege-escalation"]),
   ("active_directory_abuse",     ["credential-access", "lateral-movement"]),
   ("web_application_simulation", ["initial-access"]),
   ("network_signaling",          ["command-and-control"])]

/-- Table `GENERATION_MATRIX` of src/src/config.py. -/
def GENERATION_MATRIX : List (String × List String) :=
  [("credential_access",          ["windows", "linux", "macos"]),
   ("privilege_escalation",       ["windows", "linux", "macos"]),
   ("persistence",                ["windows", "linux", "macos"]),
   ("lateral_movement",           ["windows", "linux"]),
   ("defense_evasion",            ["windows", "linux", "macos"]),
   ("command_and_control",        ["windows", "linux", "macos"]),
   ("discovery",                  ["windows", "linux", "macos", "cloud_aws", "cloud_azure", "cloud_gcp"]),
   ("collection",                 ["windows", "linux", "macos"]),
   ("exfiltration",               ["windows", "linux"]),
   ("cloud_iam_abuse",            ["cloud_aws", "cloud_azure", "cloud_gcp"]),
   ("active_directory_abuse",     ["windows"]),
   ("web_application_simulation", ["linux", "windows"]),
   ("network_signaling",          ["windows", "linux"])]

/-- One entry of `PLATFORM_COHERENCE_RULES`: the validator only reads the
`must_not_contain` and `platform_must_be` keys (with default `[]`);
`should_contain_any` is present in config but never read by the code. -/
structure CoherenceRule where
  must_not_contain : List String := []
  should_contain_any : List String := []
  platform_must_be : List String := []
  deriving Repr

/-- Table `PLATFORM_COHERENCE_RULES` of src/src/config.py. -/
def PLATFORM_COHERENCE_RULES : List (String × CoherenceRule) :=
  [("powershell",
    { must_not_contain := ["#!/bin/bash", "#!/bin/sh", "#!/usr/bin/env"],
      should_contain_any := ["\\$env:", "Get-", "Set-", "New-", "Remove-", "Write-Host", "Invoke-"],
      platform_must_be := ["windows"] }),
   ("cmd",
    { must_not_contain := ["\\$env:", "Get-Process", "#!/bin/"],
      should_contain_any := ["REM ", "echo ", "set ", "del ", "copy ", "%\\w+%"],
      platform_must_be := ["windows"] }),
   ("bash",
    { must_not_contain := ["\\$env:", "Get-Process", "Write-Host", "REM "],
      should_contain_any := ["#!/bin/bash", "echo ", "cat ", "grep ", "export ", "\\$\\\x7b?\\w+\\\x7d?"],
      platform_must_be := ["linux", "macos"] }),
   ("zsh",
    { must_not_contain := ["\\$env:", "Write-Host", "REM "],
      platform_must_be := ["macos", "linux"] }),
   ("aws_cli",
    { should_contain_any := ["aws\\s+", "aws\\s+sts", "aws\\s+iam", "aws\\s+s3"],
      platform_must_be := ["cloud_aws", "linux", "macos", "windows"] }),
   ("az_cli",
    { should_contain_any := ["az\\s+", "az\\s+account", "az\\s+ad", "az\\s+role"],
      platform_must_be := ["cloud_azure", "linux", "macos", "windows"] }),
   ("gcloud_cli",
    { should_contain_any := ["gcloud\\s+"],
      platform_must_be := ["cloud_gcp", "linux", "macos", "windows"] })]

/-- Table `KNOWN_BINARIES` of src/src/config.py. -/
def KNOWN_BINARIES : List (String × List String) :=
  [("windows",
    ["rundll32.exe", "reg.exe", "certutil.exe", "whoami.exe", "net.exe",
     "net1.exe", "schtasks.exe", "wmic.exe", "powershell.exe", "cmd.exe",
     "tasklist.exe", "nltest.exe", "dsquery.exe", "setspn.exe", "klist.exe",
     "bitsadmin.exe", "mshta.exe", "cscript.exe", "wscript.exe", "msiexec.exe",
     "regsvr32.exe", "installutil.exe", "sc.exe", "netsh.exe", "bcdedit.exe",
     "vssadmin.exe", "esentutl.exe", "ntdsutil.exe", "csvde.exe", "ldifde.exe"]),
   ("linux",
    ["whoami", "id", "cat", "grep", "awk", "sed", "find", "ls", "ps",
     "curl", "wget", "openssl", "ssh", "scp", "chmod", "chown", "crontab",
     "systemctl", "journalctl", "passwd", "shadow", "useradd", "usermod",
     "iptables", "nmap", "tcpdump", "nc", "netcat", "python3", "perl"]),
   ("macos",
    ["whoami", "id", "cat", "grep", "security", "dscl", "defaults",
     "launchctl", "osascript", "plutil", "profiles", "curl", "openssl"])]

/-- Table `EXECUTOR_TO_PLATFORM_FAMILY` of src/src/config.py. -/
def EXECUTOR_TO_PLATFORM_FAMILY : List (String × String) :=
  [("powershell", "windows"),
   ("cmd", "windows"),
   ("bash", "linux"),
   ("sh", "linux"),
   ("zsh", "macos"),
   ("python", "linux"),
   ("aws_cli", "linux"),
   ("az_cli", "linux"),
   ("gcloud_cli", "linux"),
   ("manual", "linux")]

/-- Field `enable_safety_layer` of `Settings` (src/src/config.py); loaded
from the environment, default `False`. -/
structure Settings where
  enable_safety_layer : Bool := false
  deriving Repr

-- ──────────────────────────────────────────────────────────────
-- SafetyValidator (src/src/layers/layer6_safety.py)
-- ──────────────────────────────────────────────────────────────

/-- Python stdlib boundary used by the validator, passed explicitly:
`re.search(pattern, text, re.IGNORECASE) is not None`, `uuid.UUID(s)`
succeeding, and `datetime.fromisoformat(s)` succeeding. -/
structure PyRuntime where
  reSearch : String → String → Bool
  uuidOk : String → Bool
  isoOk : String → Bool

/-- Neo4j boundary: `conn.run_query` for the technique-lookup Cypher query,
returning the record list or a raised transport error. -/
def ConnQuery := String → Except String (List String)

/-- Dataclass `RuleResult` of src/src/layers/layer6_safety.py. -/
structure RuleResult where
  rule_name : String
  passed : Bool
  detail : String := ""
  deriving DecidableEq, Repr

/-- Dataclass `ValidationResult` of src/src/layers/layer6_safety.py. -/
structure ValidationResult where
  passed : Bool
  ability_id : String
  status : String
  hard_failures : List RuleResult := []
  warnings : List RuleResult := []
  deriving Repr

/-- Class `SafetyValidator`: the optional graph connection it is built
with, plus the Python-runtime boundary and the module-level
`COMMAND_BLOCKLIST` it reads (configured value: `COMMAND_BLOCKLIST`). -/
structure SafetyValidator where
  conn : Option ConnQuery
  rt : PyRuntime
  blocklist : List String := COMMAND_BLOCKLIST

/-- Method `_check_schema`: always passes (the instance already
type-checked). -/
def checkSchema (_a : Ability) : RuleResult :=
  { rule_name := "schema_valid", passed := true }

/-- Method `_check_status`: `approval_status` must be PENDING. -/
def checkStatus (a : Ability) : RuleResult :=
  let ok := a.approval_status = ApprovalStatus.PENDING
  { rule_name := "approval_status",
    passed := ok,
    detail := if ok then "" else "Expected PENDING, got " ++ a.approval_status.value }

/-- Method `_check_simulation_flag`: `simulation_only` must be True. -/
def checkSimulationFlag (a : Ability) : RuleResult :=
  let ok := a.simulation_only = true
  { rule_name := "simulation_flag",
    passed := ok,
    detail := if ok then "" else "simulation_only is not True" }

/-- Method `_check_creator`: `created_by` must be "AI". -/
def checkCreator (a : Ability) : RuleResult :=
  let ok := a.created_by = "AI"
  { rule_name := "creator_tag",
    passed := ok,
    detail := if ok then "" else "Expected AI, got " ++ a.created_by }

/-- Method `_check_mitre_mapping`: technique must exist in the graph;
skipped with a pass when no connection is attached or the lookup raises. -/
def checkMitreMapping (conn : Option ConnQuery) (a : Ability) : RuleResult :=
  match conn with
  | none =>
      { rule_name := "mitre_mapping", passed := true,
        detail := "Skipped - no graph connection" }
  | some q =>
      match q a.mitre_mapping.technique with
      | Except.error exc =>
          { rule_name := "mitre_mapping", passed := true,
            detail := "Graph lookup error - skipped: " ++ exc }
      | Except.ok records =>
          if records.isEmpty then
            { rule_name := "mitre_mapping", passed := false,
              detail := "Technique " ++ a.mitre_mapping.technique ++ " not found in graph" }
          else
            { rule_name := "mitre_mapping", passed := true }

/-- Method `_check_executor_present`: at least one executor. -/
def checkExecutorPresent (a : Ability) : RuleResult :=
  let ok := 1 ≤ a.executors.length
  { rule_name := "executor_present",
    passed := ok,
    detail := if ok then "" else "No executors defined" }

/-- Inner loop of `_check_command_blocklist` for one executor: the first
(field, pattern) hit, checking `command` before `cleanup_procedure`. -/
def blocklistHit (rt : PyRuntime) (blocklist : List String) (e : Executor) :
    Option (String × String) :=
  match blocklist.find? (fun p => rt.reSearch p e.command) with
  | some p => some ("command", p)
  | none =>
      match blocklist.find? (fun p => rt.reSearch p e.cleanup_procedure) with
      | some p => some ("cleanup_procedure", p)
      | none => none

/-- Method `_check_command_blocklist`: no command or cleanup text may match
a blocklist pattern (case-insensitive regex search). -/
def checkCommandBlocklist (rt : PyRuntime) (blocklist : List String) (a : Ability) :
    RuleResult :=
  match a.executors.findSome? (fun e => (blocklistHit rt blocklist e).map (fun h => (e, h))) with
  | some (e, fieldName, p) =>
      { rule_name := "command_blocklist", passed := false,
        detail := "Executor " ++ e.name.value ++ " " ++ fieldName ++
          " matched blocklist pattern: " ++ p }
  | none => { rule_name := "command_blocklist", passed := true }

/-- One-executor body of `_check_platform_coherence`: platform must be in
`platform_must_be` (when non-empty) and the command must not match any
`must_not_contain` pattern; executors without a rules entry are skipped. -/
def coherenceViolation (rt : PyRuntime) (e : Executor) : Option RuleResult :=
  match lookupAssoc PLATFORM_COHERENCE_RULES e.name.value with
  | none => none
  | some rules =>
      let allowed := rules.platform_must_be
      if !allowed.isEmpty && !allowed.contains e.platform.value then
        some { rule_name := "platform_coherence", passed := false,
               detail := "Executor " ++ e.name.value ++
                 " requires another platform, got " ++ e.platform.value }
      else
        match rules.must_not_contain.find? (fun p => rt.reSearch p e.command) with
        | some p =>
            some { rule_name := "platform_coherence", passed := false,
                   detail := "Executor " ++ e.name.value ++
                     " command contains cross-platform syntax matching: " ++ p }
        | none => none

/-- Method `_check_platform_coherence`. -/
def checkPlatformCoherence (rt : PyRuntime) (a : Ability) : RuleResult :=
  (a.executors.findSome? (coherenceViolation rt)).getD
    { rule_name := "platform_coherence", passed := true }

/-- Method `_check_executor_name_enum`: every `executor.name.value` must be
one of the `ExecutorType` values (always true by typing; kept for audit). -/
def checkExecutorNameEnum (a : Ability) : RuleResult :=
  match a.executors.find? (fun e => !(EXECUTOR_TYPE_VALUES.contains e.name.value)) with
  | some e =>
      { rule_name := "executor_name_enum", passed := false,
        detail := "Invalid executor name: " ++ e.name.value }
  | none => { rule_name := "executor_name_enum", passed := true }

/-- Predicate `not executor.cleanup_procedure or not executor.cleanup_procedure.strip()`
of `_check_cleanup_present`: empty or whitespace-only. -/
def isBlankCleanup (s : String) : Bool :=
  s = "" || pyStrip s = ""

/-- Method `_check_cleanup_present`: every executor needs a non-blank
`cleanup_procedure`. -/
def checkCleanupPresent (a : Ability) : RuleResult :=
  match a.executors.find? (fun e => isBlankCleanup e.cleanup_procedure) with
  | some e =>
      { rule_name := "cleanup_present", passed := false,
        detail := "Executor " ++ e.name.value ++ " has empty cleanup_procedure" }
  | none => { rule_name := "cleanup_present", passed := true }

/-- Method `_check_content`: name length at least 5, description length at
least 50 (Python `len` over characters). -/
def checkContent (a : Ability) : RuleResult :=
  if a.name.length < MIN_ABILITY_NAME_LEN then
    { rule_name := "content_check", passed := false,
      detail := "Name too short" }
  else if a.description.length < MIN_ABILITY_DESC_LEN then
    { rule_name := "content_check", passed := false,
      detail := "Description too short" }
  else
    { rule_name := "content_check", passed := true }

/-- Method `_check_identity`: `id` must parse as a UUID; `generated_at`,
when non-empty (Python truthiness of the string), must parse as ISO 8601. -/
def checkIdentity (rt : PyRuntime) (a : Ability) : RuleResult :=
  if !(rt.uuidOk a.id) then
    { rule_name := "identity_check", passed := false,
      detail := "Invalid UUID: " ++ a.id }
  else if a.generated_at ≠ "" && !(rt.isoOk a.generated_at) then
    { rule_name := "identity_check", passed := false,
      detail := "Invalid ISO 8601 timestamp: " ++ a.generated_at }
  else
    { rule_name := "identity_check", passed := true }

/-- Per-executor issue collection of `_check_command_syntax`. -/
def syntaxIssues (e : Executor) : List String :=
  let cmd := e.command
  let nm := e.name.value
  (if countChar cmd '\'' % 2 ≠ 0 then [nm ++ ": unmatched single quote"] else []) ++
  (if countChar cmd '"' % 2 ≠ 0 then [nm ++ ": unmatched double quote"] else []) ++
  (if countChar cmd '(' ≠ countChar cmd ')' then [nm ++ ": unmatched parentheses"] else []) ++
  (let stripped := pyRstrip cmd
   if strEndsWith stripped "|" || strEndsWith stripped ";" then
     [nm ++ ": trailing pipe or semicolon"] else [])

/-- Soft method `_check_command_syntax`: quote/parenthesis balance and
trailing pipe or semicolon heuristics. -/
def checkCommandSyntax (a : Ability) : RuleResult :=
  let issues := a.executors.foldl (fun acc e => acc ++ syntaxIssues e) []
  if issues.isEmpty then
    { rule_name := "command_syntax", passed := true }
  else
    { rule_name := "command_syntax", passed := false,
      detail := String.intercalate "; " issues }

/-- First non-comment, non-blank line of a command (the `break` loop of
`_check_known_binaries`). -/
def firstCodeLine (cmd : String) : Option String :=
  ((pySplitLines cmd).map pyStrip).find?
    (fun line => line ≠ "" && !(strStartsWith line "#") && !(strStartsWith line "REM"))

/-- Unknown-binary finding for one executor in `_check_known_binaries`. -/
def binaryIssue (e : Executor) : Option String :=
  let family := lookupAssocD EXECUTOR_TO_PLATFORM_FAMILY e.name.value "linux"
  let allowlist := lookupAssocD KNOWN_BINARIES family []
  if allowlist.isEmpty then none
  else
    match firstCodeLine (pyStrip e.command) with
    | none => none
    | some line =>
        let firstToken := (pySplitWhitespace line).headD ""
        let binary := afterLast '\\' (afterLast '/' firstToken)
        if binary ≠ "" &&
            !((allowlist.map pyLower).contains (pyLower binary)) then
          some (e.name.value ++ ": " ++ binary ++ " not in allowlist")
        else none

/-- Soft method `_check_known_binaries`: the first token of the first
non-comment command line should be in the per-family OS-binary allowlist. -/
def checkKnownBinaries (a : Ability) : RuleResult :=
  let unknown := a.executors.foldl
    (fun acc e => acc ++ ((binaryIssue e).map (fun u => [u])).getD []) []
  if unknown.isEmpty then
    { rule_name := "known_binaries", passed := true }
  else
    { rule_name := "known_binaries", passed := false,
      detail := String.intercalate "; " unknown }

/-- The ordered hard-rule list `self._hard_rules` of `SafetyValidator`. -/
def hardRules (v : SafetyValidator) : List (Ability → RuleResult) :=
  [checkSchema, checkStatus, checkSimulationFlag, checkCreator,
   checkMitreMapping v.conn, checkExecutorPresent,
   checkCommandBlocklist v.rt v.blocklist, checkPlatformCoherence v.rt,
   checkExecutorNameEnum, checkCleanupPresent, checkContent,
   checkIdentity v.rt]

/-- The ordered soft-rule list `self._soft_rules` of `SafetyValidator`. -/
def softRules : List (Ability → RuleResult) :=
  [checkCommandSyntax, checkKnownBinaries]

/-- Method `SafetyValidator.validate`: run all rules in order, collect hard
failures and soft warnings, and aggregate. The batched audit append
(`_log_audit_batch` over `all_results`) is a file-system effect outside
the returned value and is not modelled. -/
def validate (v : SafetyValidator) (a : Ability) : ValidationResult :=
  let hardResults := (hardRules v).map (fun rule => rule a)
  let softResults := softRules.map (fun rule => rule a)
  let hard_failures := hardResults.filter (fun r => !r.passed)
  let warnings := softResults.filter (fun r => !r.passed)
  let passed := hard_failures.length == 0
  { passed := passed,
    ability_id := a.id,
    status := if passed then "PENDING" else "BLOCKED",
    hard_failures := hard_failures,
    warnings := warnings }

-- ──────────────────────────────────────────────────────────────
-- ReasoningEngine (src/src/layers/layer3_reasoning.py)
-- ──────────────────────────────────────────────────────────────

/-- Dataclass `GenerateResult` of src/src/llm/base.py, with tool-call
dicts kept as their `name` projections (the only field the engine reads). -/
structure GenerateResult where
  text : String := ""
  parsed : Option Ability := none
  tool_calls : List String := []
  total_tokens : Nat := 0
  deriving Repr

/-- The boundary of one `ReasoningEngine.generate_abilities` invocation:
the LLM client, the clock, the settings read by `get_settings()`, and the
outcomes of the Phase A and Phase B `generate()` calls. `phaseA = none`
models the exception branch caught inside `_phase_a_reasoning`;
`phaseB i = (none, 0)` models a `ValidationError` after retries or any
other exception caught inside `_phase_b_compose` for item `i`. -/
structure ReasoningEnv where
  modelName : String
  now : String
  safetyEnabled : Bool
  validator : SafetyValidator
  phaseA : Option GenerateResult
  phaseB : Nat → Option Ability × Nat

/-- Static method `ReasoningEngine._enforce_safety_fields`: override the
safety-critical fields regardless of LLM output (`generated_at` is the
current UTC timestamp, passed in as `now`). -/
def enforceSafetyFields (now : String) (a : Ability) : Ability :=
  { a with approval_status := ApprovalStatus.PENDING,
           created_by := "AI",
           simulation_only := true,
           schema_version := SCHEMA_VERSION,
           generated_at := now,
           agent_version := AGENT_VERSION }

/-- Per-item post-processing inside the Phase B loop of
`generate_abilities`: field enforcement, optional safety validation with
auto-BLOCK, and trace attachment. `btok` is the running Phase B token
total at this item. -/
def processComposed (env : ReasoningEnv) (pa : GenerateResult) (btok : Nat)
    (ab : Ability) : Ability :=
  let ab := enforceSafetyFields env.now ab
  let checked : Ability × List String :=
    if env.safetyEnabled then
      let validation := validate env.validator ab
      (if validation.passed then ab
       else { ab with approval_status := ApprovalStatus.BLOCKED },
       validation.warnings.map (fun w => w.detail))
    else
      (ab, [])
  let trace : GenerationTrace :=
    { model := env.modelName,
      tools_called := pa.tool_calls,
      reasoning_steps := pa.tool_calls.length,
      total_tokens := pa.total_tokens + btok,
      blocklist_version := BLOCKLIST_VERSION,
      validation_warnings := checked.2 }
  { checked.1 with generation_trace := some trace }

/-- The `for i in range(1, count + 1)` Phase B loop of
`generate_abilities`: issue the composition call per index, skip failed
items, accumulate abilities in submission order and the running Phase B
token total. -/
def phaseBLoop (env : ReasoningEnv) (pa : GenerateResult) :
    List Nat → List Ability → Nat → List Ability × Nat
  | [], abs, btok => (abs, btok)
  | i :: rest, abs, btok =>
      let step := env.phaseB i
      let btok := btok + step.2
      match step.1 with
      | none => phaseBLoop env pa rest abs btok
      | some ab => phaseBLoop env pa rest (abs ++ [processComposed env pa btok ab]) btok

/-- Method `ReasoningEngine.generate_abilities`, instrumented with the
number of `llm.generate` calls issued (one for Phase A when reached, one
per Phase B item). The category argument is the normalized string value
(`category.value if isinstance(category, AttackCategory) else str(category)`). -/
def generateAbilities (env : ReasoningEnv) (category : String)
    (_platform : String) (count : Nat) : List Ability × Nat :=
  let tactics := (lookupAssoc CATEGORY_TO_TACTICS category).getD []
  if tactics.isEmpty then
    ([], 0)
  else
    match env.phaseA with
    | none => ([], 1)
    | some pa =>
        let looped := phaseBLoop env pa ((List.range count).map (fun j => j + 1)) [] 0
        (looped.1, 1 + count)

-- ──────────────────────────────────────────────────────────────
-- BatchGenerator (src/src/services/batch_generator.py)
-- ──────────────────────────────────────────────────────────────

/-- Dataclass `TechniqueTarget` of src/src/services/batch_generator.py. -/
structure TechniqueTarget where
  technique_id : String
  technique_name : String
  category : String
  platform : String
  tactic : String
  is_subtechnique : Bool := false
  parent_id : Option String := none
  deriving DecidableEq, Repr

/-- Dataclass `BatchStats` of src/src/services/batch_generator.py
(`elapsed_seconds` is wall-clock time, outside the model). -/
structure BatchStats where
  total_targets : Nat := 0
  generated : Nat := 0
  failed : Nat := 0
  blocked : Nat := 0
  skipped_categories : Nat := 0
  errors : List String := []
  deriving Repr

/-- One row returned by `CTITools.get_techniques_by_tactic` /
`get_subtechniques`: the fields `discover_targets` reads. -/
structure TechRecord where
  attack_id : String
  name : String
  platforms : List String
  deriving DecidableEq, Repr

/-- Knowledge-store snapshot behind the two discovery queries. -/
structure CTIStore where
  techniquesByTactic : String → List TechRecord
  subtechniques : String → List TechRecord

/-- The `platform_map` table of `BatchGenerator._platform_matches`. -/
def PLATFORM_MAP : List (String × List String) :=
  [("windows", ["windows"]),
   ("linux", ["linux"]),
   ("macos", ["macos"]),
   ("cloud_aws", ["iaas", "saas", "aws"]),
   ("cloud_azure", ["azure ad", "iaas", "saas", "office 365", "azure"]),
   ("cloud_gcp", ["iaas", "saas", "google workspace", "gcp"])]

/-- Static method `BatchGenerator._platform_matches`: some matcher for the
target platform occurs as a substring of some (already lower-cased)
technique platform. -/
def platformMatches (target_platform : String) (technique_platforms : List String) : Bool :=
  let matchers := (lookupAssoc PLATFORM_MAP target_platform).getD [target_platform]
  technique_platforms.any (fun tp => matchers.any (fun m => strIn m tp))

/-- Discovery accumulator: the `seen` key set and the target list. -/
structure DiscoverState where
  seen : List (String × String) := []
  targets : List TechniqueTarget := []

/-- Guarded insert shared by the parent- and sub-technique branches of
`discover_targets`: `if plat_match and key not in seen`. -/
def discoverInsert (key : String × String) (matched : Bool) (t : TechniqueTarget)
    (s : DiscoverState) : DiscoverState :=
  if matched ∧ ¬ (key ∈ s.seen) then
    { seen := key :: s.seen, targets := s.targets ++ [t] }
  else
    s

/-- Per-parent-technique body of `discover_targets`: cross the parent with
the category's platforms, then expand and cross its sub-techniques. -/
def processTech (store : CTIStore) (category tactic : String)
    (platforms : List String) (s : DiscoverState) (tech : TechRecord) : DiscoverState :=
  let tid := tech.attack_id
  let techPlatforms := tech.platforms.map pyLower
  let s := platforms.foldl
    (fun s plat =>
      discoverInsert (tid, plat) (platformMatches plat techPlatforms)
        { technique_id := tid, technique_name := tech.name, category := category,
          platform := plat, tactic := tactic, is_subtechnique := false,
          parent_id := none } s)
    s
  (store.subtechniques tid).foldl
    (fun s sub =>
      let sid := sub.attack_id
      let subPlatforms := sub.platforms.map pyLower
      platforms.foldl
        (fun s plat =>
          discoverInsert (sid, plat) (platformMatches plat subPlatforms)
            { technique_id := sid, technique_name := sub.name, category := category,
              platform := plat, tactic := tactic, is_subtechnique := true,
              parent_id := some tid } s)
        s)
    s

/-- Method `BatchGenerator.discover_targets`: resolve tactics per category
of the (optionally filtered) generation matrix, query parent techniques
and sub-techniques, cross with the category's platforms, and deduplicate
(technique_id, platform) keys globally. -/
def discoverTargets (store : CTIStore) (categories : Option (List String)) :
    List TechniqueTarget :=
  let matrix := match categories with
    | none => GENERATION_MATRIX
    | some cats => GENERATION_MATRIX.filter (fun kv => cats.contains kv.1)
  let final := matrix.foldl
    (fun s entry =>
      let category := entry.1
      let platforms := entry.2
      let tactics := (lookupAssoc CATEGORY_TO_TACTICS category).getD []
      if tactics.isEmpty then s
      else
        tactics.foldl
          (fun s tactic =>
            (store.techniquesByTactic tactic).foldl
              (processTech store category tactic platforms) s)
          s)
    {}
  final.targets

/-- The boundary of one `BatchGenerator` instance: model name, clock,
settings, validator, the enrichment outcome per technique (`"error" in
intel`, the skip branch of `_compose_ability`), and the outcome of the
schema-constrained `llm.generate` call per target (`none` models a raised
exception caught in `_compose_ability`; otherwise `(result.parsed,
result.total_tokens)`). -/
structure BatchEnv where
  modelName : String
  now : String
  settings : Settings
  validator : SafetyValidator
  enrichError : String → Bool
  llmCompose : TechniqueTarget → Option (Option Ability × Nat)

/-- The post-parse tail of `BatchGenerator._compose_ability`: the inlined
six field assignments (the same ones `_enforce_safety_fields` performs),
the optional safety validation with auto-BLOCK, and trace attachment. -/
def batchPostProcess (benv : BatchEnv) (totalTokens : Nat) (ability : Ability) :
    Ability :=
  let ability := enforceSafetyFields benv.now ability
  let checked : Ability × List String :=
    if benv.settings.enable_safety_layer then
      let validation := validate benv.validator ability
      (if validation.passed then ability
       else { ability with approval_status := ApprovalStatus.BLOCKED },
       validation.warnings.map (fun w => w.detail))
    else
      (ability, [])
  let trace : GenerationTrace :=
    { model := benv.modelName,
      tools_called := ["get_technique_intel", "enrich_technique_context"],
      reasoning_steps := 0,
      total_tokens := totalTokens,
      blocklist_version := BLOCKLIST_VERSION,
      validation_warnings := checked.2 }
  { checked.1 with generation_trace := some trace }

/-- Method `BatchGenerator._compose_ability`: enrich, call the LLM with
`schema=Ability`, enforce safety fields, optionally validate with
auto-BLOCK, and attach the generation trace; `none` on any failure. -/
def composeAbility (benv : BatchEnv) (target : TechniqueTarget) : Option Ability :=
  if benv.enrichError target.technique_id then
    none
  else
    match benv.llmCompose target with
    | none => none
    | some (none, _) => none
    | some (some ability, totalTokens) =>
        some (batchPostProcess benv totalTokens ability)

/-- The `by_category` grouping of `BatchGenerator.run` (Python
`dict.setdefault`: first-occurrence category order, targets in sweep
order). -/
def groupByCategory (ts : List TechniqueTarget) :
    List (String × List TechniqueTarget) :=
  ts.foldl
    (fun acc t =>
      if acc.any (fun p => p.1 == t.category) then
        acc.map (fun p => if p.1 == t.category then (p.1, p.2 ++ [t]) else p)
      else
        acc ++ [(t.category, [t])])
    []

/-- One collected future of `BatchGenerator._generate_category`: append the
ability and bump `generated`/`blocked`, or bump `failed` and record the
diagnostic string. -/
def genStep (benv : BatchEnv) (acc : List Ability × BatchStats)
    (target : TechniqueTarget) : List Ability × BatchStats :=
  match composeAbility benv target with
  | some ability =>
      (acc.1 ++ [ability],
       { acc.2 with
           generated := acc.2.generated + 1,
           blocked := if ability.approval_status = ApprovalStatus.BLOCKED
             then acc.2.blocked + 1 else acc.2.blocked })
  | none =>
      (acc.1,
       { acc.2 with
           failed := acc.2.failed + 1,
           errors := acc.2.errors ++
             [target.technique_id ++ "/" ++ target.platform ++
               ": composition returned None"] })

/-- Method `BatchGenerator._generate_category`: run `_compose_ability` for
every target of a category and update counters. The source fans out over
a thread pool and collects as futures complete with no ordering
guarantee; the per-target outcomes are order-independent, and we collect
in submission order. -/
def generateCategory (benv : BatchEnv) (targets : List TechniqueTarget)
    (stats : BatchStats) : List Ability × BatchStats :=
  targets.foldl (genStep benv) ([], stats)

/-- File writes performed by `BatchGenerator._save_category` inside the
category directory: one `<technique_or_sub_id>_<platform>.json` per
ability, then `_manifest.json`; each write is recorded as
(category, filename). -/
def saveCategoryWrites (category : String) (abilities : List Ability) :
    List (String × String) :=
  (abilities.map (fun ability =>
    let plat := match ability.executors with
      | [] => "unknown"
      | e :: _ => e.platform.value
    let tid := (ability.mitre_mapping.sub_technique).getD ability.mitre_mapping.technique
    -- Python tid.replace("/", "_") with one-character arguments
    let safeTid := String.mk (tid.toList.map (fun c => if c = '/' then '_' else c))
    (category, safeTid ++ "_" ++ plat ++ ".json"))) ++
  [(category, "_manifest.json")]

/-- File-system state read by `run` with `resume=True`: whether
`<output_dir>/<category>/_manifest.json` exists. -/
structure BatchFS where
  manifestExists : String → Bool

/-- The per-category loop of `BatchGenerator.run`: skip a category when
resuming and its manifest exists, otherwise generate and persist it. -/
def runCategories (benv : BatchEnv) (fs : BatchFS) (resume : Bool) :
    List (String × List TechniqueTarget) → BatchStats → List (String × String) →
    BatchStats × List (String × String)
  | [], stats, writes => (stats, writes)
  | (category, cat_targets) :: rest, stats, writes =>
      if resume ∧ fs.manifestExists category then
        runCategories benv fs resume rest
          { stats with skipped_categories := stats.skipped_categories + 1 } writes
      else
        let generated := generateCategory benv cat_targets stats
        runCategories benv fs resume rest generated.2
          (writes ++ saveCategoryWrites category generated.1)

/-- Method `BatchGenerator.run`: discover, optionally stop after the
dry-run manifest print (no writes), otherwise group by category and
process each category sequentially. Returns the stats and the list of
file writes performed. -/
def runBatch (benv : BatchEnv) (store : CTIStore) (fs : BatchFS)
    (categories : Option (List String)) (resume : Bool) (dry_run : Bool) :
    BatchStats × List (String × String) :=
  let all_targets := discoverTargets store categories
  let stats : BatchStats := { total_targets := all_targets.length }
  if dry_run then
    (stats, [])
  else
    runCategories benv fs resume (groupByCategory all_targets) stats []

-- ──────────────────────────────────────────────────────────────
-- LLMClient retry helper (src/src/llm/base.py)
-- ──────────────────────────────────────────────────────────────

/-- Error classification of `_retry_with_backoff`, derived from the
lower-cased exception string: auth markers are checked first, then the
retryable keyword list; everything else is non-retryable. -/
inductive ErrClass
  | auth
  | retryable
  | other
  deriving DecidableEq, Repr

/-- The keyword scan of `_retry_with_backoff` over `str(exc).lower()`. -/
def classifyError (exc : String) : ErrClass :=
  let s := pyLower exc
  if strIn "401" s || strIn "403" s || strIn "unauthorized" s then
    ErrClass.auth
  else if ["429", "rate", "500", "502", "503", "504", "timeout", "connection"].any
      (fun k => strIn k s) then
    ErrClass.retryable
  else
    ErrClass.other

/-- Observable outcome of one `_retry_with_backoff` run: the returned
value or re-raised error, the delays passed to `time.sleep` in order, and
the number of times `func` was invoked. -/
structure RetryOutcome (α : Type) where
  result : Except String α
  sleeps : List ℚ
  attempts : Nat
  deriving Repr

/-- The `for attempt in range(1, MAX_RETRIES + 1)` loop of
`_retry_with_backoff`. `pending` is the list of remaining attempt
numbers; an empty `rest` means `attempt == MAX_RETRIES`, where the source
skips the sleep and falls through to `raise last_exc`. -/
def retryGo (func : Nat → Except String α) :
    List Nat → ℚ → List ℚ → Nat → Option String → RetryOutcome α
  | [], _, sleeps, done, lastExc =>
      { result := Except.error (lastExc.getD ""), sleeps := sleeps, attempts := done }
  | attempt :: rest, delay, sleeps, done, _ =>
      match func attempt with
      | Except.ok v =>
          { result := Except.ok v, sleeps := sleeps, attempts := done + 1 }
      | Except.error exc =>
          match classifyError exc with
          | ErrClass.auth =>
              { result := Except.error exc, sleeps := sleeps, attempts := done + 1 }
          | ErrClass.other =>
              { result := Except.error exc, sleeps := sleeps, attempts := done + 1 }
          | ErrClass.retryable =>
              if rest.isEmpty then
                retryGo func rest delay sleeps (done + 1) (some exc)
              else
                retryGo func rest (min (delay * LLM_BACKOFF_FACTOR) LLM_MAX_DELAY)
                  (sleeps ++ [delay]) (done + 1) (some exc)

/-- Method `LLMClient._retry_with_backoff`: up to `LLM_MAX_RETRIES`
attempts with exponential backoff on retryable errors. `func attempt`
is the outcome of the wrapped call on that (1-based) attempt. -/
def retryWithBackoff (func : Nat → Except String α) : RetryOutcome α :=
  retryGo func ((List.range LLM_MAX_RETRIES).map (fun j => j + 1))
    LLM_BASE_DELAY [] 0 none

-- ──────────────────────────────────────────────────────────────
-- Verification predicates over the discovery state
-- ──────────────────────────────────────────────────────────────

/-- The deduplication key of a target, as used by `discover_targets`. -/
def keyOf (t : TechniqueTarget) : String × String :=
  (t.technique_id, t.platform)

/-- Invariant of the discovery fold: the emitted keys are duplicate-free
and all recorded in the `seen` set. -/
def DInv (s : DiscoverState) : Prop :=
  (s.targets.map keyOf).Nodup ∧ ∀ k ∈ s.targets.map keyOf, k ∈ s.seen

/-- A row obtained from one of the two discovery queries of the store. -/
def RecInStore (store : CTIStore) (rec : TechRecord) : Prop :=
  (∃ tactic, rec ∈ store.techniquesByTactic tactic) ∨
  (∃ parent, rec ∈ store.subtechniques parent)

/-- The matcher strings `_platform_matches` uses for a target platform. -/
def matchersFor (target_platform : String) : List String :=
  (lookupAssoc PLATFORM_MAP target_platform).getD [target_platform]

/-- A discovered target is backed by a store row whose declared (and
lower-cased) platform list matches the target platform. -/
def TargetOk (store : CTIStore) (t : TechniqueTarget) : Prop :=
  ∃ rec, RecInStore store rec ∧ rec.attack_id = t.technique_id ∧
    platformMatches t.platform (rec.platforms.map pyLower) = true

-- ──────────────────────────────────────────────────────────────
-- Concrete fixtures used by witnesses and counterexamples
-- ──────────────────────────────────────────────────────────────

/-- Python runtime where no regex pattern matches and uuid/iso parsing
succeed. -/
def rtTrivial : PyRuntime :=
  { reSearch := fun _ _ => false, uuidOk := fun _ => true, isoOk := fun _ => true }

/-- Python runtime whose regex search is literal substring search (how a
regex without metacharacters behaves). -/
def rtSubstr : PyRuntime :=
  { reSearch := fun p t => strIn p t, uuidOk := fun _ => true, isoOk := fun _ => true }

/-- Validator with no graph connection and the trivial runtime. -/
def validatorTrivial : SafetyValidator := { conn := none, rt := rtTrivial }

/-- Well-formed bash executor. -/
def executorOk : Executor :=
  { name := ExecutorType.bash, platform := Platform.linux,
    privilege_required := PrivilegeLevel.user,
    command := "whoami", payload_description := "prints the current user",
    cleanup_procedure := "true" }

/-- Executor whose cleanup procedure is whitespace-only. -/
def executorBlankCleanup : Executor := { executorOk with cleanup_procedure := "  " }

/-- Executor whose cleanup procedure is the empty string. -/
def executorEmptyCleanup : Executor := { executorOk with cleanup_procedure := "" }

/-- Ability that passes every hard rule under `validatorTrivial` once
enforced. -/
def abilityOk : Ability :=
  { id := "3f2b8d0e-0000-4000-8000-000000000001",
    name := "List current user context",
    description := String.mk (List.replicate 60 'd'),
    attack_category := "credential_access",
    mitre_mapping := { tactic := "credential-access", technique := "T1003" },
    threat_intel_context := {},
    executors := [executorOk] }

/-- Ability whose only executor has a whitespace-only cleanup. -/
def abilityBlankCleanup : Ability := { abilityOk with executors := [executorBlankCleanup] }

/-- Ability whose only executor has an empty-string cleanup. -/
def abilityEmptyCleanup : Ability := { abilityOk with executors := [executorEmptyCleanup] }

/-- Ability whose command contains the literal blocklist pattern used in
the C4 witness. -/
def abilityHot : Ability :=
  { abilityOk with executors := [{ executorOk with command := "run forbiddenbinary now" }] }

/-- Default ability used with `List.headD`. -/
def emptyAbility : Ability :=
  { id := "", name := "", description := "", attack_category := "",
    mitre_mapping := { tactic := "", technique := "" },
    threat_intel_context := {}, executors := [] }

/-- Reasoning environment: safety layer enabled, Phase A succeeds, Phase B
item 2 fails and the rest return `abilityOk`. -/
def envOkSkip2 : ReasoningEnv :=
  { modelName := "test-model", now := "2026-01-01T00:00:00+00:00",
    safetyEnabled := true, validator := validatorTrivial,
    phaseA := some { text := "ctx", tool_calls := ["get_technique_intel"], total_tokens := 10 },
    phaseB := fun i => if i = 2 then (none, 0) else (some abilityOk, 5) }

/-- Reasoning environment whose Phase B always returns the empty-cleanup
ability (safety layer enabled). -/
def envEmptyCleanup : ReasoningEnv :=
  { envOkSkip2 with phaseB := fun _ => (some abilityEmptyCleanup, 0) }

/-- Batch environment: safety on, enrichment always succeeds, composition
always parses `abilityOk`. -/
def batchEnvOk : BatchEnv :=
  { modelName := "test-model", now := "2026-01-01T00:00:00+00:00",
    settings := { enable_safety_layer := true }, validator := validatorTrivial,
    enrichError := fun _ => false,
    llmCompose := fun _ => some (some abilityOk, 9) }

/-- Concrete generation target. -/
def targetA : TechniqueTarget :=
  { technique_id := "T1003", technique_name := "OS Credential Dumping",
    category := "credential_access", platform := "linux",
    tactic := "credential-access" }

/-- Concrete knowledge-store row. -/
def recordA : TechRecord :=
  { attack_id := "T1003", name := "OS Credential Dumping",
    platforms := ["Windows", "Linux"] }

/-- Knowledge store holding `recordA` under credential-access and no
sub-techniques. -/
def storeA : CTIStore :=
  { techniquesByTactic := fun tac => if tac = "credential-access" then [recordA] else [],
    subtechniques := fun _ => [] }

/-- File system with no pre-existing manifests. -/
def fsEmpty : BatchFS := { manifestExists := fun _ => false }

/-- Default target used with `List.headD`. -/
def targetDefault : TechniqueTarget :=
  { technique_id := "", technique_name := "", category := "", platform := "",
    tactic := "" }

/-- First target discovered from `storeA` for credential access. -/
def discoveredHeadTarget : TechniqueTarget :=
  (discoverTargets storeA (some ["credential_access"])).headD targetDefault

/-- First category group of the concrete batch run. -/
def groupHeadA : String × List TechniqueTarget :=
  (groupByCategory (discoverTargets storeA (some ["credential_access"]))).headD ("", [])

/-- First artifact of a concrete reasoning run (safety layer on). -/
def pipelineHeadAbility : Ability :=
  (generateAbilities envOkSkip2 "credential_access" "windows" 1).1.headD emptyAbility

/-- Artifact of a concrete batch composition (safety layer on). -/
def composeHeadAbility : Ability :=
  (composeAbility batchEnvOk targetA).getD emptyAbility

/-- Wrapped call failing twice with a timeout, then succeeding. -/
def funcTimeoutTwice : Nat → Except String Nat :=
  fun attempt => if attempt < 3 then Except.error "Read timeout" else Except.ok 7

/-- Wrapped call that always fails with a 503. -/
def func503 : Nat → Except String Nat :=
  fun _ => Except.error "HTTP 503 service unavailable"

/-- Wrapped call that fails with an auth error. -/
def func401 : Nat → Except String Nat :=
  fun _ => Except.error "401 Client Error Unauthorized"

-- ──────────────────────────────────────────────────────────────
-- General lemmas about validate
-- ──────────────────────────────────────────────────────────────

/-- A failing hard rule's result appears among the hard failures. -/
theorem validate_hard_mem (v : SafetyValidator) (a : Ability)
    (rule : Ability → RuleResult) (h : rule ∈ hardRules v)
    (hf : (rule a).passed = false) : rule a ∈ (validate v a).hard_failures := by
  simp only [validate]
  refine List.mem_filter.2 ⟨List.mem_map.2 ⟨rule, h, rfl⟩, ?_⟩
  simp [hf]

/-- The aggregate pass flag holds exactly when every hard rule passed. -/
theorem validate_passed_iff (v : SafetyValidator) (a : Ability) :
    (validate v a).passed = true ↔ ∀ rule ∈ hardRules v, (rule a).passed = true := by
  have hpassed : (validate v a).passed = ((validate v a).hard_failures.length == 0) := by
    simp [validate]
  constructor
  · intro h rule hrule
    by_contra hfail
    have hfail2 : (rule a).passed = false := by
      cases hpp : (rule a).passed
      · rfl
      · exact absurd hpp hfail
    have hmem : rule a ∈ (validate v a).hard_failures :=
      validate_hard_mem v a rule hrule hfail2
    have hne : (validate v a).hard_failures ≠ [] := List.ne_nil_of_mem hmem
    rw [hpassed] at h
    simp only [beq_iff_eq] at h
    exact hne (List.length_eq_zero.1 h)
  · intro h
    have hnil : (validate v a).hard_failures = [] := by
      simp only [validate]
      refine List.filter_eq_nil_iff.2 ?_
      intro r hr
      rcases List.mem_map.1 hr with ⟨rule, hrule, rfl⟩
      simp [h rule hrule]
    rw [hpassed, hnil]
    rfl

/-- The returned status is the two-valued aggregate of the pass flag. -/
theorem validate_status_eq (v : SafetyValidator) (a : Ability) :
    (validate v a).status =
      if (validate v a).passed = true then "PENDING" else "BLOCKED" := by
  simp only [validate]

/-- The returned status is BLOCKED exactly when some hard rule failed. -/
theorem validate_blocked_iff (v : SafetyValidator) (a : Ability) :
    (validate v a).status = "BLOCKED" ↔ ∃ rule ∈ hardRules v, (rule a).passed = false := by
  rw [validate_status_eq]
  by_cases hp : (validate v a).passed = true
  · rw [if_pos hp]
    constructor
    · intro h
      exact absurd h (by decide)
    · rintro ⟨rule, hrule, hfail⟩
      have := (validate_passed_iff v a).1 hp rule hrule
      rw [this] at hfail
      exact absurd hfail (by decide)
  · rw [if_neg hp]
    constructor
    · intro _
      by_contra hno
      push_neg at hno
      apply hp
      refine (validate_passed_iff v a).2 ?_
      intro rule hrule
      have hne := hno rule hrule
      cases hpp : (rule a).passed
      · exact absurd hpp hne
      · rfl
    · intro _
      rfl

/-- The status is always one of PENDING and BLOCKED. -/
theorem validate_status_cases (v : SafetyValidator) (a : Ability) :
    (validate v a).status = "PENDING" ∨ (validate v a).status = "BLOCKED" := by
  rw [validate_status_eq]
  by_cases hp : (validate v a).passed = true
  · left
    rw [if_pos hp]
  · right
    rw [if_neg hp]

/-- The warnings are exactly the failing soft-rule results; they do not
feed into the pass flag or the status. -/
theorem validate_warnings_eq (v : SafetyValidator) (a : Ability) :
    (validate v a).warnings =
      (softRules.map (fun rule => rule a)).filter (fun r => !r.passed) := by
  simp only [validate]

/-- Passing `checkCleanupPresent` means no executor has a blank cleanup. -/
theorem checkCleanupPresent_passed_iff (a : Ability) :
    (checkCleanupPresent a).passed = true ↔
      ∀ e ∈ a.executors, isBlankCleanup e.cleanup_procedure = false := by
  cases hfind : a.executors.find? (fun e => isBlankCleanup e.cleanup_procedure) with
  | none =>
      have hval : (checkCleanupPresent a).passed = true := by
        simp [checkCleanupPresent, hfind]
      refine ⟨fun _ e he => ?_, fun _ => hval⟩
      have := List.find?_eq_none.1 hfind e he
      simpa using this
  | some e =>
      have hval : (checkCleanupPresent a).passed = false := by
        simp [checkCleanupPresent, hfind]
      constructor
      · intro h
        rw [hval] at h
        exact absurd h (by decide)
      · intro hall
        have hmem := List.mem_of_find?_eq_some hfind
        have hprop := List.find?_some hfind
        have hblank := hall e hmem
        rw [hblank] at hprop
        exact absurd hprop (by decide)

/-- Finding nothing over a list means every element maps to `none`. -/
theorem findSome?_eq_none_forall {α β : Type} {f : α → Option β} :
    ∀ {l : List α}, l.findSome? f = none ↔ ∀ x ∈ l, f x = none := by
  intro l
  induction l with
  | nil => simp
  | cons x xs ih =>
      rw [List.findSome?_cons]
      cases hx : f x with
      | some b => simp [hx]
      | none =>
          rw [ih]
          constructor
          · intro h y hy
            rcases List.mem_cons.1 hy with rfl | hy2
            · exact hx
            · exact h y hy2
          · intro h y hy
            exact h y (List.mem_cons_of_mem x hy)

/-- One executor produces no blocklist hit exactly when none of its two
text fields matches any pattern. -/
theorem blocklistHit_eq_none_iff (rt : PyRuntime) (blocklist : List String)
    (e : Executor) :
    blocklistHit rt blocklist e = none ↔
      ∀ p ∈ blocklist,
        rt.reSearch p e.command = false ∧ rt.reSearch p e.cleanup_procedure = false := by
  unfold blocklistHit
  cases h1 : blocklist.find? (fun p => rt.reSearch p e.command) with
  | some p =>
      have hmem := List.mem_of_find?_eq_some h1
      have hp := List.find?_some h1
      constructor
      · intro h
        exact absurd h (by simp)
      · intro hall
        have := (hall p hmem).1
        rw [this] at hp
        exact absurd hp (by decide)
  | none =>
      cases h2 : blocklist.find? (fun p => rt.reSearch p e.cleanup_procedure) with
      | some p =>
          have hmem := List.mem_of_find?_eq_some h2
          have hp := List.find?_some h2
          constructor
          · intro h
            exact absurd h (by simp)
          · intro hall
            have := (hall p hmem).2
            rw [this] at hp
            exact absurd hp (by decide)
      | none =>
          constructor
          · intro _ p hpmem
            have hc := List.find?_eq_none.1 h1 p hpmem
            have hcl := List.find?_eq_none.1 h2 p hpmem
            constructor
            · cases hb : rt.reSearch p e.command
              · rfl
              · exact absurd hb hc
            · cases hb : rt.reSearch p e.cleanup_procedure
              · rfl
              · exact absurd hb hcl
          · intro _
            rfl

/-- The blocklist rule passes exactly when no executor has a hit. -/
theorem checkCommandBlocklist_passed_iff (rt : PyRuntime) (blocklist : List String)
    (a : Ability) :
    (checkCommandBlocklist rt blocklist a).passed = true ↔
      ∀ e ∈ a.executors, blocklistHit rt blocklist e = none := by
  unfold checkCommandBlocklist
  cases hf : a.executors.findSome?
      (fun e => (blocklistHit rt blocklist e).map (fun h => (e, h))) with
  | none =>
      constructor
      · intro _ e he
        have hnone := findSome?_eq_none_forall.1 hf e he
        cases hb : blocklistHit rt blocklist e with
        | none => rfl
        | some h =>
            rw [hb] at hnone
            exact absurd hnone (by simp)
      · intro _
        rfl
  | some x =>
      obtain ⟨e, fieldName, p⟩ := x
      constructor
      · intro hpass
        exact absurd hpass (by simp)
      · intro hall
        have hnone : a.executors.findSome?
            (fun e => (blocklistHit rt blocklist e).map (fun h => (e, h))) = none := by
          refine findSome?_eq_none_forall.2 ?_
          intro e2 he2
          rw [hall e2 he2]
          rfl
        rw [hnone] at hf
        exact absurd hf (by simp)

-- ──────────────────────────────────────────────────────────────
-- Claims C3 and C4
-- ──────────────────────────────────────────────────────────────

/-- C3: `SafetyValidator.validate` returns status BLOCKED iff at least one
hard rule failed and PENDING otherwise; any executor with an empty or
whitespace-only `cleanup_procedure` fails the hard rule cleanup_present
and forces BLOCKED; soft-rule outcomes never feed `passed` or `status` —
they only populate the warnings list. -/
theorem c3_validate_block_semantics (v : SafetyValidator) (a : Ability) :
    ((validate v a).status = "BLOCKED" ↔
        ∃ rule ∈ hardRules v, (rule a).passed = false) ∧
    ((validate v a).status ≠ "BLOCKED" → (validate v a).status = "PENDING") ∧
    ((∃ e ∈ a.executors, isBlankCleanup e.cleanup_procedure = true) →
        (checkCleanupPresent a).passed = false ∧ (validate v a).status = "BLOCKED") ∧
    ((validate v a).passed = true ↔ ∀ rule ∈ hardRules v, (rule a).passed = true) ∧
    ((validate v a).warnings =
        (softRules.map (fun rule => rule a)).filter (fun r => !r.passed)) := by
  refine ⟨validate_blocked_iff v a, ?_, ?_, validate_passed_iff v a, validate_warnings_eq v a⟩
  · intro hne
    rcases validate_status_cases v a with h | h
    · exact h
    · exact absurd h hne
  · rintro ⟨e, he, hblank⟩
    have hfail : (checkCleanupPresent a).passed = false := by
      cases hp : (checkCleanupPresent a).passed
      · rfl
      · have := (checkCleanupPresent_passed_iff a).1 hp e he
        rw [hblank] at this
        exact absurd this (by decide)
    refine ⟨hfail, ?_⟩
    refine (validate_blocked_iff v a).2 ⟨checkCleanupPresent, ?_, hfail⟩
    simp [hardRules]

/-- Witness for C3: a concrete artifact with a whitespace-only cleanup is
BLOCKED by the concrete validator. -/
theorem c3_validate_block_semantics_witness :
    (validate validatorTrivial abilityBlankCleanup).status = "BLOCKED" :=
  ((c3_validate_block_semantics validatorTrivial abilityBlankCleanup).2.2.1
    ⟨executorBlankCleanup, by decide, by decide⟩).2

/-- C4: a hit of any configured blocklist pattern on any executor's command
or cleanup text fails the hard rule command_blocklist and forces status
BLOCKED regardless of all other fields; with no hit the rule passes. The
configured `COMMAND_BLOCKLIST` is empty, so on the shipped configuration
the rule always passes. -/
theorem c4_command_blocklist (rt : PyRuntime) (conn : Option ConnQuery)
    (blocklist : List String) (a : Ability) :
    ((∃ e ∈ a.executors, ∃ p ∈ blocklist,
        rt.reSearch p e.command = true ∨ rt.reSearch p e.cleanup_procedure = true) →
      (checkCommandBlocklist rt blocklist a).passed = false ∧
      (validate { conn := conn, rt := rt, blocklist := blocklist } a).status = "BLOCKED") ∧
    ((∀ e ∈ a.executors, ∀ p ∈ blocklist,
        rt.reSearch p e.command = false ∧ rt.reSearch p e.cleanup_procedure = false) →
      (checkCommandBlocklist rt blocklist a).passed = true) ∧
    (checkCommandBlocklist rt COMMAND_BLOCKLIST a).passed = true := by
  refine ⟨?_, ?_, ?_⟩
  · rintro ⟨e, he, p, hp, hmatch⟩
    have hfail : (checkCommandBlocklist rt blocklist a).passed = false := by
      cases hpass : (checkCommandBlocklist rt blocklist a).passed
      · rfl
      · have hnone := (checkCommandBlocklist_passed_iff rt blocklist a).1 hpass e he
        have hforall := (blocklistHit_eq_none_iff rt blocklist e).1 hnone p hp
        rcases hmatch with hm | hm
        · rw [hforall.1] at hm
          exact absurd hm (by decide)
        · rw [hforall.2] at hm
          exact absurd hm (by decide)
    refine ⟨hfail, ?_⟩
    refine (validate_blocked_iff _ a).2 ⟨checkCommandBlocklist rt blocklist, ?_, hfail⟩
    simp [hardRules]
  · intro hall
    refine (checkCommandBlocklist_passed_iff rt blocklist a).2 ?_
    intro e he
    exact (blocklistHit_eq_none_iff rt blocklist e).2 (hall e he)
  · refine (checkCommandBlocklist_passed_iff rt COMMAND_BLOCKLIST a).2 ?_
    intro e _
    refine (blocklistHit_eq_none_iff rt COMMAND_BLOCKLIST e).2 ?_
    intro p hp
    exact absurd hp (by simp [COMMAND_BLOCKLIST])

/-- Witness for C4: a concrete command hitting a concrete one-pattern
blocklist is BLOCKED, and a clean artifact passes the rule. -/
theorem c4_command_blocklist_witness :
    (validate { conn := none, rt := rtSubstr, blocklist := ["forbiddenbinary"] }
      abilityHot).status = "BLOCKED" ∧
    (checkCommandBlocklist rtSubstr ["forbiddenbinary"] abilityOk).passed = true :=
  ⟨((c4_command_blocklist rtSubstr none ["forbiddenbinary"] abilityHot).1
      (by decide)).2,
   (c4_command_blocklist rtSubstr none ["forbiddenbinary"] abilityOk).2.1
      (by decide)⟩

-- ──────────────────────────────────────────────────────────────
-- Lemmas about the generation pipelines
-- ──────────────────────────────────────────────────────────────

/-- Field effect of `_enforce_safety_fields`. -/
theorem enforceSafetyFields_spec (now : String) (ab : Ability) :
    (enforceSafetyFields now ab).executors = ab.executors ∧
    (enforceSafetyFields now ab).simulation_only = true ∧
    (enforceSafetyFields now ab).created_by = "AI" ∧
    (enforceSafetyFields now ab).approval_status = ApprovalStatus.PENDING := by
  simp [enforceSafetyFields]

/-- Every ability produced by the per-item Phase B post-processing keeps
the composed executors, is simulation-only, AI-attributed, and PENDING or
BLOCKED. -/
theorem processComposed_fields (env : ReasoningEnv) (pa : GenerateResult)
    (btok : Nat) (ab : Ability) :
    (processComposed env pa btok ab).executors = ab.executors ∧
    (processComposed env pa btok ab).simulation_only = true ∧
    (processComposed env pa btok ab).created_by = "AI" ∧
    ((processComposed env pa btok ab).approval_status = ApprovalStatus.PENDING ∨
      (processComposed env pa btok ab).approval_status = ApprovalStatus.BLOCKED) := by
  simp only [processComposed]
  by_cases hs : env.safetyEnabled = true
  · simp only [hs, if_true]
    by_cases hp : (validate env.validator (enforceSafetyFields env.now ab)).passed = true
    · rw [if_pos hp]
      refine ⟨?_, ?_, ?_, Or.inl ?_⟩ <;> simp [enforceSafetyFields]
    · rw [if_neg hp]
      refine ⟨?_, ?_, ?_, Or.inr ?_⟩ <;> simp [enforceSafetyFields]
  · rw [if_neg hs]
    refine ⟨?_, ?_, ?_, Or.inl ?_⟩ <;> simp [enforceSafetyFields]

/-- When the safety layer is on and the processed item is still PENDING,
validation of the enforced item passed. -/
theorem processComposed_pending_passed (env : ReasoningEnv) (pa : GenerateResult)
    (btok : Nat) (ab : Ability) (hs : env.safetyEnabled = true)
    (hpend : (processComposed env pa btok ab).approval_status = ApprovalStatus.PENDING) :
    (validate env.validator (enforceSafetyFields env.now ab)).passed = true := by
  by_cases hp : (validate env.validator (enforceSafetyFields env.now ab)).passed = true
  · exact hp
  · exfalso
    have hb : (processComposed env pa btok ab).approval_status = ApprovalStatus.BLOCKED := by
      simp [processComposed, hs, hp]
    rw [hb] at hpend
    exact absurd hpend (by decide)

/-- Elements of the Phase B loop output are either initial or processed
successfully-composed abilities. -/
theorem phaseBLoop_mem (env : ReasoningEnv) (pa : GenerateResult) :
    ∀ (idxs : List Nat) (abs : List Ability) (btok : Nat) (a : Ability),
      a ∈ (phaseBLoop env pa idxs abs btok).1 →
      a ∈ abs ∨ ∃ i btok2 ab, (env.phaseB i).1 = some ab ∧
        a = processComposed env pa btok2 ab := by
  intro idxs
  induction idxs with
  | nil =>
      intro abs btok a h
      exact Or.inl (by simpa [phaseBLoop] using h)
  | cons i rest ih =>
      intro abs btok a h
      simp only [phaseBLoop] at h
      cases hstep : (env.phaseB i).1 with
      | none =>
          rw [hstep] at h
          exact ih abs (btok + (env.phaseB i).2) a h
      | some ab =>
          rw [hstep] at h
          rcases ih _ _ a h with hmem | hex
          · rcases List.mem_append.1 hmem with h1 | h2
            · exact Or.inl h1
            · have heq : a = processComposed env pa (btok + (env.phaseB i).2) ab := by
                simpa using h2
              exact Or.inr ⟨i, btok + (env.phaseB i).2, ab, hstep, heq⟩
          · exact Or.inr hex

/-- The Phase B loop emits exactly one ability per successful composition. -/
theorem phaseBLoop_length (env : ReasoningEnv) (pa : GenerateResult) :
    ∀ (idxs : List Nat) (abs : List Ability) (btok : Nat),
      (phaseBLoop env pa idxs abs btok).1.length =
        abs.length + idxs.countP (fun i => ((env.phaseB i).1).isSome) := by
  intro idxs
  induction idxs with
  | nil =>
      intro abs btok
      simp [phaseBLoop]
  | cons i rest ih =>
      intro abs btok
      cases hstep : (env.phaseB i).1 with
      | none =>
          have hred : phaseBLoop env pa (i :: rest) abs btok =
              phaseBLoop env pa rest abs (btok + (env.phaseB i).2) := by
            simp only [phaseBLoop, hstep]
          rw [hred, ih, List.countP_cons]
          simp [hstep]
      | some ab =>
          have hred : phaseBLoop env pa (i :: rest) abs btok =
              phaseBLoop env pa rest
                (abs ++ [processComposed env pa (btok + (env.phaseB i).2) ab])
                (btok + (env.phaseB i).2) := by
            simp only [phaseBLoop, hstep]
          rw [hred, ih, List.countP_cons]
          simp [hstep]
          omega

/-- Every ability produced by the batch per-target post-processing keeps
the parsed executors, is simulation-only, AI-attributed, and PENDING or
BLOCKED. -/
theorem batchPostProcess_fields (benv : BatchEnv) (tok : Nat) (ab : Ability) :
    (batchPostProcess benv tok ab).executors = ab.executors ∧
    (batchPostProcess benv tok ab).simulation_only = true ∧
    (batchPostProcess benv tok ab).created_by = "AI" ∧
    ((batchPostProcess benv tok ab).approval_status = ApprovalStatus.PENDING ∨
      (batchPostProcess benv tok ab).approval_status = ApprovalStatus.BLOCKED) := by
  simp only [batchPostProcess]
  by_cases hs : benv.settings.enable_safety_layer = true
  · simp only [hs, if_true]
    by_cases hp : (validate benv.validator (enforceSafetyFields benv.now ab)).passed = true
    · rw [if_pos hp]
      refine ⟨?_, ?_, ?_, Or.inl ?_⟩ <;> simp [enforceSafetyFields]
    · rw [if_neg hp]
      refine ⟨?_, ?_, ?_, Or.inr ?_⟩ <;> simp [enforceSafetyFields]
  · rw [if_neg hs]
    refine ⟨?_, ?_, ?_, Or.inl ?_⟩ <;> simp [enforceSafetyFields]

/-- When the batch safety layer is on and the processed target is still
PENDING, validation of the enforced item passed. -/
theorem batchPostProcess_pending_passed (benv : BatchEnv) (tok : Nat) (ab : Ability)
    (hs : benv.settings.enable_safety_layer = true)
    (hpend : (batchPostProcess benv tok ab).approval_status = ApprovalStatus.PENDING) :
    (validate benv.validator (enforceSafetyFields benv.now ab)).passed = true := by
  by_cases hp : (validate benv.validator (enforceSafetyFields benv.now ab)).passed = true
  · exact hp
  · exfalso
    have hb : (batchPostProcess benv tok ab).approval_status = ApprovalStatus.BLOCKED := by
      simp [batchPostProcess, hs, hp]
    rw [hb] at hpend
    exact absurd hpend (by decide)

/-- A successful `_compose_ability` call pins down the parsed LLM output
and the post-processing applied to it. -/
theorem composeAbility_eq_some (benv : BatchEnv) (target : TechniqueTarget)
    (a : Ability) (h : composeAbility benv target = some a) :
    ∃ parsed tok, benv.llmCompose target = some (some parsed, tok) ∧
      a = batchPostProcess benv tok parsed := by
  by_cases henr : benv.enrichError target.technique_id = true
  · simp [composeAbility, henr] at h
  · cases hcomp : benv.llmCompose target with
    | none => simp [composeAbility, henr, hcomp] at h
    | some pr =>
        obtain ⟨abOpt, tok⟩ := pr
        cases abOpt with
        | none => simp [composeAbility, henr, hcomp] at h
        | some parsed =>
            refine ⟨parsed, tok, rfl, ?_⟩
            simp only [composeAbility, henr, hcomp] at h
            simp at h
            exact h.symm

/-- The default-head of a non-empty list is a member. -/
theorem headD_mem_of_ne_nil {α : Type} (l : List α) (d : α) (h : l ≠ []) :
    l.headD d ∈ l := by
  cases l with
  | nil => exact absurd rfl h
  | cons x xs => simp

/-- The default-value of a present option is its member. -/
theorem getD_mem_of_isSome {α : Type} (o : Option α) (d : α) (h : o.isSome = true) :
    o.getD d ∈ o := by
  cases o with
  | none => simp at h
  | some x => simp [Option.mem_def]

-- ──────────────────────────────────────────────────────────────
-- Claims C1, C2, C6, C10
-- ──────────────────────────────────────────────────────────────

/-- C1: every artifact returned by `ReasoningEngine.generate_abilities` or
by the batch per-target composition has, immediately after enforcement
plus optional safety validation, at least one executor,
`simulation_only = true`, `created_by = "AI"`, and an approval status of
PENDING or BLOCKED — regardless of what the model emitted (the executor
bound is the Pydantic `min_length=1` constraint every parsed `Ability`
carries). -/
theorem c1_generated_artifact_invariants (env : ReasoningEnv)
    (category platform : String) (count : Nat)
    (benv : BatchEnv) (target : TechniqueTarget)
    (hB : ∀ i : Nat, ∀ ab ∈ (env.phaseB i).1, pydanticValid ab = true)
    (hC : ∀ ab tok, benv.llmCompose target = some (some ab, tok) →
        pydanticValid ab = true) :
    (∀ a ∈ (generateAbilities env category platform count).1,
        1 ≤ a.executors.length ∧ a.simulation_only = true ∧ a.created_by = "AI" ∧
        (a.approval_status = ApprovalStatus.PENDING ∨
          a.approval_status = ApprovalStatus.BLOCKED)) ∧
    (∀ a ∈ composeAbility benv target,
        1 ≤ a.executors.length ∧ a.simulation_only = true ∧ a.created_by = "AI" ∧
        (a.approval_status = ApprovalStatus.PENDING ∨
          a.approval_status = ApprovalStatus.BLOCKED)) := by
  constructor
  · intro a ha
    by_cases htac : ((lookupAssoc CATEGORY_TO_TACTICS category).getD []).isEmpty = true
    · simp [generateAbilities, htac] at ha
    · cases hpa : env.phaseA with
      | none => simp [generateAbilities, htac, hpa] at ha
      | some pa =>
          have ha2 : a ∈ (phaseBLoop env pa
              ((List.range count).map (fun j => j + 1)) [] 0).1 := by
            simpa [generateAbilities, htac, hpa] using ha
          rcases phaseBLoop_mem env pa _ _ _ a ha2 with hmem | ⟨i, btok2, ab, hstep, rfl⟩
          · simp at hmem
          · obtain ⟨hex, hsim, hcre, hst⟩ := processComposed_fields env pa btok2 ab
            have hv : pydanticValid ab = true := hB i ab (Option.mem_def.2 hstep)
            refine ⟨?_, hsim, hcre, hst⟩
            rw [hex]
            simpa [pydanticValid] using hv
  · intro a ha
    have hsome : composeAbility benv target = some a := Option.mem_def.1 ha
    obtain ⟨parsed, tok, hcomp, rfl⟩ := composeAbility_eq_some benv target a hsome
    obtain ⟨hex, hsim, hcre, hst⟩ := batchPostProcess_fields benv tok parsed
    have hv := hC parsed tok hcomp
    refine ⟨?_, hsim, hcre, hst⟩
    rw [hex]
    simpa [pydanticValid] using hv

/-- Witness for C1: both pipelines on concrete inputs produce artifacts
satisfying the invariants. -/
theorem c1_generated_artifact_invariants_witness :
    (1 ≤ pipelineHeadAbility.executors.length ∧
      pipelineHeadAbility.simulation_only = true ∧
      pipelineHeadAbility.created_by = "AI" ∧
      (pipelineHeadAbility.approval_status = ApprovalStatus.PENDING ∨
        pipelineHeadAbility.approval_status = ApprovalStatus.BLOCKED)) ∧
    (1 ≤ composeHeadAbility.executors.length ∧
      composeHeadAbility.simulation_only = true ∧
      composeHeadAbility.created_by = "AI" ∧
      (composeHeadAbility.approval_status = ApprovalStatus.PENDING ∨
        composeHeadAbility.approval_status = ApprovalStatus.BLOCKED)) := by
  have h := c1_generated_artifact_invariants envOkSkip2 "credential_access" "windows" 1
    batchEnvOk targetA
    (by
      intro i ab hab
      by_cases hi : i = 2
      · simp [envOkSkip2, hi] at hab
      · simp [envOkSkip2, hi] at hab
        subst hab
        decide)
    (by
      intro ab tok hcomp
      simp [batchEnvOk] at hcomp
      obtain ⟨h1, h2⟩ := hcomp
      subst h1
      decide)
  exact ⟨h.1 pipelineHeadAbility
      (headD_mem_of_ne_nil _ emptyAbility (by decide)),
    h.2 composeHeadAbility
      (getD_mem_of_isSome _ emptyAbility (by decide))⟩

/-- C2 (amended): field enforcement does not rewrite cleanup text, so an
artifact can leave the pipeline with an empty `cleanup_procedure`; what
holds is that whenever the safety layer is enabled, every artifact that
leaves either pipeline still PENDING has a non-blank `cleanup_procedure`
on every executor (blank-cleanup artifacts are BLOCKED). -/
theorem c2_cleanup_enforcement_amended (env : ReasoningEnv)
    (category platform : String) (count : Nat)
    (benv : BatchEnv) (target : TechniqueTarget) :
    (env.safetyEnabled = true →
      ∀ a ∈ (generateAbilities env category platform count).1,
        a.approval_status = ApprovalStatus.PENDING →
        ∀ e ∈ a.executors, isBlankCleanup e.cleanup_procedure = false) ∧
    (benv.settings.enable_safety_layer = true →
      ∀ a ∈ composeAbility benv target,
        a.approval_status = ApprovalStatus.PENDING →
        ∀ e ∈ a.executors, isBlankCleanup e.cleanup_procedure = false) := by
  constructor
  · intro hs a ha hpend e he
    by_cases htac : ((lookupAssoc CATEGORY_TO_TACTICS category).getD []).isEmpty = true
    · simp [generateAbilities, htac] at ha
    · cases hpa : env.phaseA with
      | none => simp [generateAbilities, htac, hpa] at ha
      | some pa =>
          have ha2 : a ∈ (phaseBLoop env pa
              ((List.range count).map (fun j => j + 1)) [] 0).1 := by
            simpa [generateAbilities, htac, hpa] using ha
          rcases phaseBLoop_mem env pa _ _ _ a ha2 with hmem | ⟨i, btok2, ab, hstep, rfl⟩
          · simp at hmem
          · have hpassed := processComposed_pending_passed env pa btok2 ab hs hpend
            have hclean := (validate_passed_iff _ _).1 hpassed checkCleanupPresent
              (by simp [hardRules])
            have hall := (checkCleanupPresent_passed_iff _).1 hclean
            have he2 : e ∈ (enforceSafetyFields env.now ab).executors := by
              rw [(enforceSafetyFields_spec env.now ab).1]
              rw [(processComposed_fields env pa btok2 ab).1] at he
              exact he
            exact hall e he2
  · intro hs a ha hpend e he
    have hsome : composeAbility benv target = some a := Option.mem_def.1 ha
    obtain ⟨parsed, tok, hcomp, rfl⟩ := composeAbility_eq_some benv target a hsome
    have hpassed := batchPostProcess_pending_passed benv tok parsed hs hpend
    have hclean := (validate_passed_iff _ _).1 hpassed checkCleanupPresent
      (by simp [hardRules])
    have hall := (checkCleanupPresent_passed_iff _).1 hclean
    have he2 : e ∈ (enforceSafetyFields benv.now parsed).executors := by
      rw [(enforceSafetyFields_spec benv.now parsed).1]
      rw [(batchPostProcess_fields benv tok parsed).1] at he
      exact he
    exact hall e he2

/-- Counterexample for C2 as stated: a schema-valid composition whose only
executor has an empty-string cleanup passes through the full pipeline
(safety layer enabled) and leaves it with the cleanup still empty. -/
theorem c2_cleanup_counterexample :
    (generateAbilities envEmptyCleanup "credential_access" "windows" 1).1.length = 1 ∧
    ((generateAbilities envEmptyCleanup "credential_access" "windows" 1).1.headD
        emptyAbility).executors.any (fun e => e.cleanup_procedure == "") = true := by
  constructor
  · decide
  · decide

/-- Witness for the amended C2: the concrete PENDING artifact of the
safety-enabled run has a non-blank cleanup on its first executor. -/
theorem c2_cleanup_enforcement_amended_witness :
    isBlankCleanup (pipelineHeadAbility.executors.headD executorOk).cleanup_procedure
      = false :=
  (c2_cleanup_enforcement_amended envOkSkip2 "credential_access" "windows" 1
      batchEnvOk targetA).1 rfl pipelineHeadAbility
    (headD_mem_of_ne_nil _ emptyAbility (by decide)) (by decide)
    (pipelineHeadAbility.executors.headD executorOk)
    (headD_mem_of_ne_nil _ executorOk (by decide))

/-- C6: with a mapped category, total Phase A failure yields the empty
list (after exactly one LLM call); otherwise the output has exactly one
artifact per successful Phase B item, in submission order, hence at most
`count` — per-item failures skip only that item, and the function is
total (never raises). -/
theorem c6_partial_batch_semantics (env : ReasoningEnv)
    (category platform : String) (count : Nat)
    (htac : ((lookupAssoc CATEGORY_TO_TACTICS category).getD []).isEmpty = false) :
    (env.phaseA = none →
      generateAbilities env category platform count = ([], 1)) ∧
    (∀ pa, env.phaseA = some pa →
      (generateAbilities env category platform count).1.length =
        ((List.range count).map (fun j => j + 1)).countP
          (fun i => ((env.phaseB i).1).isSome) ∧
      (generateAbilities env category platform count).1.length ≤ count) := by
  constructor
  · intro hpa
    simp [generateAbilities, htac, hpa]
  · intro pa hpa
    have hlen := phaseBLoop_length env pa ((List.range count).map (fun j => j + 1)) [] 0
    simp only [List.length_nil, Nat.zero_add] at hlen
    have hgen : (generateAbilities env category platform count).1 =
        (phaseBLoop env pa ((List.range count).map (fun j => j + 1)) [] 0).1 := by
      simp [generateAbilities, htac, hpa]
    constructor
    · rw [hgen, hlen]
    · rw [hgen, hlen]
      calc ((List.range count).map (fun j => j + 1)).countP
            (fun i => ((env.phaseB i).1).isSome)
          ≤ ((List.range count).map (fun j => j + 1)).length := List.countP_le_length _
        _ = count := by simp

/-- Witness for C6: the concrete run with item 2 failing returns exactly
the number of successful items and no more than requested. -/
theorem c6_partial_batch_semantics_witness :
    (generateAbilities envOkSkip2 "credential_access" "windows" 3).1.length =
      ((List.range 3).map (fun j => j + 1)).countP
        (fun i => ((envOkSkip2.phaseB i).1).isSome) ∧
    (generateAbilities envOkSkip2 "credential_access" "windows" 3).1.length ≤ 3 :=
  (c6_partial_batch_semantics envOkSkip2 "credential_access" "windows" 3
    (by decide)).2 _ rfl

/-- C10: a category with no entry in `CATEGORY_TO_TACTICS` makes
`generate_abilities` return the empty list immediately, with zero LLM
calls (neither Phase A nor Phase B) and without raising. -/
theorem c10_unknown_category (env : ReasoningEnv) (platform : String)
    (count : Nat) (category : String)
    (h : lookupAssoc CATEGORY_TO_TACTICS category = none) :
    generateAbilities env category platform count = ([], 0) := by
  simp [generateAbilities, h]

/-- Witness for C10: the unlisted category "impact". -/
theorem c10_unknown_category_witness :
    generateAbilities envOkSkip2 "impact" "windows" 3 = ([], 0) :=
  c10_unknown_category envOkSkip2 "windows" 3 "impact" (by decide)

-- ──────────────────────────────────────────────────────────────
-- Claim C5
-- ──────────────────────────────────────────────────────────────

/-- C5: retry behaviour of `_retry_with_backoff`: retryable-classified
errors are retried up to 3 attempts total, sleeping 1.0 s then 2.0 s
(doubling from `LLM_BASE_DELAY`, capped at `LLM_MAX_DELAY`, which 3
attempts never reach); exhausting all 3 attempts re-raises the last
error; success at any attempt returns it; an auth-classified error
(401/403/unauthorized) and any other non-retryable error propagate
immediately with no further attempt and no sleep. -/
theorem c5_retry_backoff {α : Type} (func : Nat → Except String α)
    (e1 e2 e3 : String) (v : α) :
    (func 1 = Except.error e1 → classifyError e1 = ErrClass.retryable →
     func 2 = Except.error e2 → classifyError e2 = ErrClass.retryable →
     func 3 = Except.error e3 → classifyError e3 = ErrClass.retryable →
      retryWithBackoff func =
        { result := Except.error e3, sleeps := [1, 2], attempts := 3 }) ∧
    (func 1 = Except.ok v →
      retryWithBackoff func =
        { result := Except.ok v, sleeps := [], attempts := 1 }) ∧
    (func 1 = Except.error e1 → classifyError e1 = ErrClass.retryable →
     func 2 = Except.ok v →
      retryWithBackoff func =
        { result := Except.ok v, sleeps := [1], attempts := 2 }) ∧
    (func 1 = Except.error e1 → classifyError e1 = ErrClass.retryable →
     func 2 = Except.error e2 → classifyError e2 = ErrClass.retryable →
     func 3 = Except.ok v →
      retryWithBackoff func =
        { result := Except.ok v, sleeps := [1, 2], attempts := 3 }) ∧
    (func 1 = Except.error e1 → classifyError e1 = ErrClass.auth →
      retryWithBackoff func =
        { result := Except.error e1, sleeps := [], attempts := 1 }) ∧
    (func 1 = Except.error e1 → classifyError e1 = ErrClass.other →
      retryWithBackoff func =
        { result := Except.error e1, sleeps := [], attempts := 1 }) := by
  have hlist : ((List.range LLM_MAX_RETRIES).map (fun j => j + 1)) = [1, 2, 3] := rfl
  have hmin : min (LLM_BASE_DELAY * LLM_BACKOFF_FACTOR) LLM_MAX_DELAY = 2 := by
    norm_num [LLM_BASE_DELAY, LLM_BACKOFF_FACTOR, LLM_MAX_DELAY]
  have hmin2 : min LLM_BACKOFF_FACTOR LLM_MAX_DELAY = 2 := by
    norm_num [LLM_BACKOFF_FACTOR, LLM_MAX_DELAY]
  have hbase : LLM_BASE_DELAY = 1 := rfl
  refine ⟨?_, ?_, ?_, ?_, ?_, ?_⟩
  · intro h1 hc1 h2 hc2 h3 hc3
    unfold retryWithBackoff
    rw [hlist]
    simp [retryGo, h1, hc1, h2, hc2, h3, hc3, hmin, hmin2, hbase]
  · intro h1
    unfold retryWithBackoff
    rw [hlist]
    simp [retryGo, h1]
  · intro h1 hc1 h2
    unfold retryWithBackoff
    rw [hlist]
    simp [retryGo, h1, hc1, h2, hmin, hmin2, hbase]
  · intro h1 hc1 h2 hc2 h3
    unfold retryWithBackoff
    rw [hlist]
    simp [retryGo, h1, hc1, h2, hc2, h3, hmin, hmin2, hbase]
  · intro h1 hc1
    unfold retryWithBackoff
    rw [hlist]
    simp [retryGo, h1, hc1]
  · intro h1 hc1
    unfold retryWithBackoff
    rw [hlist]
    simp [retryGo, h1, hc1]

/-- Witness for C5: concrete runs for the always-503 call (exhaustion with
sleeps 1 s and 2 s), the timeout-twice-then-ok call, and the 401 call
(no retry, no sleep). -/
theorem c5_retry_backoff_witness :
    retryWithBackoff func503 =
      { result := Except.error "HTTP 503 service unavailable",
        sleeps := [1, 2], attempts := 3 } ∧
    retryWithBackoff funcTimeoutTwice =
      { result := Except.ok 7, sleeps := [1, 2], attempts := 3 } ∧
    retryWithBackoff func401 =
      { result := Except.error "401 Client Error Unauthorized",
        sleeps := [], attempts := 1 } :=
  ⟨(c5_retry_backoff func503 "HTTP 503 service unavailable"
      "HTTP 503 service unavailable" "HTTP 503 service unavailable" 0).1
      rfl (by decide) rfl (by decide) rfl (by decide),
   (c5_retry_backoff funcTimeoutTwice "Read timeout" "Read timeout" "Read timeout" 7).2.2.2.1
      rfl (by decide) rfl (by decide) rfl,
   (c5_retry_backoff func401 "401 Client Error Unauthorized"
      "401 Client Error Unauthorized" "401 Client Error Unauthorized" 0).2.2.2.2.1
      rfl (by decide)⟩

-- ──────────────────────────────────────────────────────────────
-- Lemmas about discovery
-- ──────────────────────────────────────────────────────────────

/-- A left fold preserves any state predicate its steps preserve. -/
theorem foldl_preserve {β σ : Type} (P : σ → Prop) (f : σ → β → σ) :
    ∀ (l : List β) (s : σ),
      (∀ s2 x, x ∈ l → P s2 → P (f s2 x)) → P s → P (l.foldl f s) := by
  intro l
  induction l with
  | nil =>
      intro s _ hs
      simpa using hs
  | cons x xs ih =>
      intro s hstep hs
      simp only [List.foldl_cons]
      exact ih (f s x)
        (fun s2 y hy hp => hstep s2 y (List.mem_cons_of_mem x hy) hp)
        (hstep s x (List.mem_cons_self x xs) hs)

/-- The guarded insert of `discover_targets` preserves the dedup
invariant when the inserted target carries the inserted key. -/
theorem discoverInsert_dinv (key : String × String) (matched : Bool)
    (t : TechniqueTarget) (s : DiscoverState) (hk : keyOf t = key)
    (h : DInv s) : DInv (discoverInsert key matched t s) := by
  subst hk
  unfold discoverInsert
  split
  case isTrue hcond =>
      obtain ⟨hmatched, hnot⟩ := hcond
      constructor
      · rw [List.map_append]
        refine List.Nodup.append h.1 (List.nodup_singleton _) ?_
        intro k1 hk1 hk2
        have hkey := List.mem_singleton.1 hk2
        subst hkey
        exact hnot (h.2 _ hk1)
      · intro k hkmem
        rw [List.map_append] at hkmem
        rcases List.mem_append.1 hkmem with h1 | h2
        · exact List.mem_cons_of_mem _ (h.2 k h1)
        · rcases List.mem_singleton.1 h2 with rfl
          exact List.mem_cons_self _ _
  case isFalse =>
      exact h

/-- Processing one parent technique preserves the dedup invariant. -/
theorem processTech_dinv (store : CTIStore) (category tactic : String)
    (platforms : List String) (s : DiscoverState) (tech : TechRecord)
    (h : DInv s) : DInv (processTech store category tactic platforms s tech) := by
  unfold processTech
  refine foldl_preserve DInv _ _ _ ?_ (foldl_preserve DInv _ _ _ ?_ h)
  · intro s2 sub _ hp
    refine foldl_preserve DInv _ _ _ ?_ hp
    intro s3 plat _ hp3
    exact discoverInsert_dinv _ _ _ _ rfl hp3
  · intro s2 plat _ hp
    exact discoverInsert_dinv _ _ _ _ rfl hp

/-- The full discovery fold satisfies the dedup invariant. -/
theorem discoverTargets_dinv (store : CTIStore) (categories : Option (List String)) :
    ∃ s : DiscoverState, (discoverTargets store categories).map keyOf =
        s.targets.map keyOf ∧ DInv s := by
  unfold discoverTargets
  refine ⟨_, rfl, ?_⟩
  have hinit : DInv {} := by
    constructor
    · exact List.nodup_nil
    · intro k hk
      exact absurd hk (List.not_mem_nil k)
  refine foldl_preserve DInv _ _ _ ?_ hinit
  intro s entry _ hp
  dsimp only
  split
  · exact hp
  · refine foldl_preserve DInv _ _ _ ?_ hp
    intro s2 tactic _ hp2
    refine foldl_preserve DInv _ _ _ ?_ hp2
    intro s3 tech _ hp3
    exact processTech_dinv store entry.1 tactic entry.2 s3 tech hp3

/-- The guarded insert preserves per-target predicates whose candidate is
justified by the match guard. -/
theorem discoverInsert_pok (store : CTIStore) (key : String × String)
    (matched : Bool) (t : TechniqueTarget) (s : DiscoverState)
    (hcand : matched = true → TargetOk store t)
    (h : ∀ u ∈ s.targets, TargetOk store u) :
    ∀ u ∈ (discoverInsert key matched t s).targets, TargetOk store u := by
  unfold discoverInsert
  split
  case isTrue hcond =>
      intro u hu
      rcases List.mem_append.1 hu with h1 | h2
      · exact h u h1
      · rcases List.mem_singleton.1 h2 with rfl
        exact hcand hcond.1
  case isFalse =>
      exact h

/-- Targets emitted while processing one parent technique of the store are
store-backed and platform-matched. -/
theorem processTech_pok (store : CTIStore) (category tactic : String)
    (platforms : List String) (s : DiscoverState) (tech : TechRecord)
    (htech : ∃ tac, tech ∈ store.techniquesByTactic tac)
    (h : ∀ u ∈ s.targets, TargetOk store u) :
    ∀ u ∈ (processTech store category tactic platforms s tech).targets,
      TargetOk store u := by
  unfold processTech
  refine foldl_preserve (fun s2 : DiscoverState => ∀ u ∈ s2.targets, TargetOk store u)
      _ _ _ ?_
    (foldl_preserve (fun s2 : DiscoverState => ∀ u ∈ s2.targets, TargetOk store u)
      _ _ _ ?_ h)
  · intro s2 sub hsub hp
    refine foldl_preserve (fun s3 : DiscoverState => ∀ u ∈ s3.targets, TargetOk store u)
      _ _ _ ?_ hp
    intro s3 plat _ hp3
    refine discoverInsert_pok store _ _ _ _ ?_ hp3
    intro hmatched
    exact ⟨sub, Or.inr ⟨tech.attack_id, hsub⟩, rfl, hmatched⟩
  · intro s2 plat _ hp
    refine discoverInsert_pok store _ _ _ _ ?_ hp
    intro hmatched
    exact ⟨tech, Or.inl htech, rfl, hmatched⟩

-- ──────────────────────────────────────────────────────────────
-- Claims C7 and C8
-- ──────────────────────────────────────────────────────────────

/-- C7: a technique declaring only Windows never matches the linux or
cloud_aws targets; in general `_platform_matches` holds exactly when some
lower-cased declared platform contains one of the target's mapped matcher
strings as a substring; and `discover_targets` includes a pair only when
this match holds against the backing store row. -/
theorem c7_platform_match (store : CTIStore) (categories : Option (List String)) :
    platformMatches "linux" (["Windows"].map pyLower) = false ∧
    platformMatches "cloud_aws" (["Windows"].map pyLower) = false ∧
    (∀ target_platform tps, platformMatches target_platform tps = true ↔
        ∃ tp ∈ tps, ∃ m ∈ matchersFor target_platform, strIn m tp = true) ∧
    (∀ t ∈ discoverTargets store categories, TargetOk store t) := by
  refine ⟨by decide, by decide, ?_, ?_⟩
  · intro target_platform tps
    unfold platformMatches matchersFor
    constructor
    · intro h
      rcases List.any_eq_true.1 h with ⟨tp, htp, hin⟩
      rcases List.any_eq_true.1 hin with ⟨m, hm, hs⟩
      exact ⟨tp, htp, m, hm, hs⟩
    · rintro ⟨tp, htp, m, hm, hs⟩
      exact List.any_eq_true.2 ⟨tp, htp, List.any_eq_true.2 ⟨m, hm, hs⟩⟩
  · unfold discoverTargets
    refine foldl_preserve (fun s : DiscoverState => ∀ u ∈ s.targets, TargetOk store u)
        _ _ _ ?_ ?_
    · intro s entry _ hp
      dsimp only
      split
      · exact hp
      · refine foldl_preserve
          (fun s2 : DiscoverState => ∀ u ∈ s2.targets, TargetOk store u) _ _ _ ?_ hp
        intro s2 tactic _ hp2
        refine foldl_preserve
          (fun s3 : DiscoverState => ∀ u ∈ s3.targets, TargetOk store u) _ _ _ ?_ hp2
        intro s3 tech htech hp3
        exact processTech_pok store entry.1 tactic entry.2 s3 tech ⟨tactic, htech⟩ hp3
    · intro u hu
      exact absurd hu (List.not_mem_nil u)

/-- Witness for C7: the single target discovered from the concrete store
is store-backed and platform-matched. -/
theorem c7_platform_match_witness : TargetOk storeA discoveredHeadTarget :=
  (c7_platform_match storeA (some ["credential_access"])).2.2.2 discoveredHeadTarget
    (headD_mem_of_ne_nil _ targetDefault (by decide))

/-- C8: `discover_targets` is deterministic for a fixed snapshot and
category set (it is a pure function of them), and its output never
contains the same (technique_id, platform) key twice. -/
theorem c8_discovery_dedup (store : CTIStore) (categories : Option (List String)) :
    ((discoverTargets store categories).map
        (fun t => (t.technique_id, t.platform))).Nodup ∧
    discoverTargets store categories = discoverTargets store categories := by
  refine ⟨?_, rfl⟩
  obtain ⟨s, hmap, hinv⟩ := discoverTargets_dinv store categories
  have : (discoverTargets store categories).map keyOf =
      (discoverTargets store categories).map (fun t => (t.technique_id, t.platform)) := rfl
  rw [← this, hmap]
  exact hinv.1

-- ──────────────────────────────────────────────────────────────
-- Lemmas about the batch run loop
-- ──────────────────────────────────────────────────────────────

/-- Every file `_save_category` writes lands in its own category
directory. -/
theorem saveCategoryWrites_fst (category : String) (abilities : List Ability) :
    ∀ w ∈ saveCategoryWrites category abilities, w.1 = category := by
  intro w hw
  unfold saveCategoryWrites at hw
  rcases List.mem_append.1 hw with h1 | h2
  · rcases List.mem_map.1 h1 with ⟨ab, _, rfl⟩
    rfl
  · rcases List.mem_singleton.1 h2 with rfl
    rfl

/-- `_save_category` always writes the category manifest. -/
theorem saveCategoryWrites_manifest (category : String) (abilities : List Ability) :
    (category, "_manifest.json") ∈ saveCategoryWrites category abilities := by
  unfold saveCategoryWrites
  exact List.mem_append.2 (Or.inr (List.mem_singleton.2 rfl))

/-- One collected future never touches the resume counter. -/
theorem genStep_skipped (benv : BatchEnv) (acc : List Ability × BatchStats)
    (target : TechniqueTarget) :
    ((genStep benv acc target).2).skipped_categories = acc.2.skipped_categories := by
  unfold genStep
  cases composeAbility benv target <;> rfl

/-- A whole category generation never touches the resume counter. -/
theorem generateCategory_skipped (benv : BatchEnv) :
    ∀ (targets : List TechniqueTarget) (acc : List Ability × BatchStats),
      ((targets.foldl (genStep benv) acc).2).skipped_categories =
        acc.2.skipped_categories := by
  intro targets
  induction targets with
  | nil =>
      intro acc
      rfl
  | cons t ts ih =>
      intro acc
      rw [List.foldl_cons, ih, genStep_skipped]

/-- Every write of the category loop is pre-existing or belongs to a
processed (non-skipped) category of the group list. -/
theorem runCategories_writes_src (benv : BatchEnv) (fs : BatchFS) :
    ∀ (groups : List (String × List TechniqueTarget)) (stats : BatchStats)
      (ws : List (String × String)) (w : String × String),
      w ∈ (runCategories benv fs true groups stats ws).2 →
      w ∈ ws ∨ ∃ g ∈ groups, g.1 = w.1 ∧ fs.manifestExists g.1 = false := by
  intro groups
  induction groups with
  | nil =>
      intro stats ws w hw
      exact Or.inl (by simpa [runCategories] using hw)
  | cons g rest ih =>
      intro stats ws w hw
      obtain ⟨category, cat_targets⟩ := g
      by_cases hskip : fs.manifestExists category = true
      · have hred : runCategories benv fs true ((category, cat_targets) :: rest) stats ws =
            runCategories benv fs true rest
              { stats with skipped_categories := stats.skipped_categories + 1 } ws := by
          simp [runCategories, hskip]
        rw [hred] at hw
        rcases ih _ _ w hw with h1 | ⟨g2, hg2, he, hm⟩
        · exact Or.inl h1
        · exact Or.inr ⟨g2, List.mem_cons_of_mem _ hg2, he, hm⟩
      · have hskip2 : fs.manifestExists category = false := by
          cases hb : fs.manifestExists category
          · rfl
          · exact absurd hb hskip
        have hred : runCategories benv fs true ((category, cat_targets) :: rest) stats ws =
            runCategories benv fs true rest
              (generateCategory benv cat_targets stats).2
              (ws ++ saveCategoryWrites category (generateCategory benv cat_targets stats).1) := by
          simp [runCategories, generateCategory, hskip2]
        rw [hred] at hw
        rcases ih _ _ w hw with h1 | ⟨g2, hg2, he, hm⟩
        · rcases List.mem_append.1 h1 with ha | hb
          · exact Or.inl ha
          · have hcat := saveCategoryWrites_fst category _ w hb
            exact Or.inr ⟨(category, cat_targets),
              List.mem_cons_self _ _, hcat.symm, hskip2⟩
        · exact Or.inr ⟨g2, List.mem_cons_of_mem _ hg2, he, hm⟩

/-- The resume counter counts exactly the manifest-bearing categories. -/
theorem runCategories_skipped_count (benv : BatchEnv) (fs : BatchFS) :
    ∀ (groups : List (String × List TechniqueTarget)) (stats : BatchStats)
      (ws : List (String × String)),
      ((runCategories benv fs true groups stats ws).1).skipped_categories =
        stats.skipped_categories +
          groups.countP (fun g => fs.manifestExists g.1) := by
  intro groups
  induction groups with
  | nil =>
      intro stats ws
      simp [runCategories]
  | cons g rest ih =>
      intro stats ws
      obtain ⟨category, cat_targets⟩ := g
      by_cases hskip : fs.manifestExists category = true
      · have hred : runCategories benv fs true ((category, cat_targets) :: rest) stats ws =
            runCategories benv fs true rest
              { stats with skipped_categories := stats.skipped_categories + 1 } ws := by
          simp [runCategories, hskip]
        rw [hred, ih, List.countP_cons]
        simp [hskip]
        omega
      · have hskip2 : fs.manifestExists category = false := by
          cases hb : fs.manifestExists category
          · rfl
          · exact absurd hb hskip
        have hred : runCategories benv fs true ((category, cat_targets) :: rest) stats ws =
            runCategories benv fs true rest
              (generateCategory benv cat_targets stats).2
              (ws ++ saveCategoryWrites category (generateCategory benv cat_targets stats).1) := by
          simp [runCategories, generateCategory, hskip2]
        rw [hred, ih, List.countP_cons]
        have hpres := generateCategory_skipped benv cat_targets ([], stats)
        simp only [generateCategory] at hpres ⊢
        rw [hpres]
        simp [hskip2]

/-- The category loop only ever appends to the write log. -/
theorem runCategories_ws_mono (benv : BatchEnv) (fs : BatchFS) :
    ∀ (groups : List (String × List TechniqueTarget)) (stats : BatchStats)
      (ws : List (String × String)) (w : String × String),
      w ∈ ws → w ∈ (runCategories benv fs true groups stats ws).2 := by
  intro groups
  induction groups with
  | nil =>
      intro stats ws w hw
      simpa [runCategories] using hw
  | cons g rest ih =>
      intro stats ws w hw
      obtain ⟨category, cat_targets⟩ := g
      by_cases hskip : fs.manifestExists category = true
      · have hred : runCategories benv fs true ((category, cat_targets) :: rest) stats ws =
            runCategories benv fs true rest
              { stats with skipped_categories := stats.skipped_categories + 1 } ws := by
          simp [runCategories, hskip]
        rw [hred]
        exact ih _ _ w hw
      · have hskip2 : fs.manifestExists category = false := by
          cases hb : fs.manifestExists category
          · rfl
          · exact absurd hb hskip
        have hred : runCategories benv fs true ((category, cat_targets) :: rest) stats ws =
            runCategories benv fs true rest
              (generateCategory benv cat_targets stats).2
              (ws ++ saveCategoryWrites category (generateCategory benv cat_targets stats).1) := by
          simp [runCategories, generateCategory, hskip2]
        rw [hred]
        exact ih _ _ w (List.mem_append.2 (Or.inl hw))

/-- Every manifest-free category of the group list gets its manifest
written by the loop. -/
theorem runCategories_manifest_written (benv : BatchEnv) (fs : BatchFS) :
    ∀ (groups : List (String × List TechniqueTarget)) (stats : BatchStats)
      (ws : List (String × String)) (g : String × List TechniqueTarget),
      g ∈ groups → fs.manifestExists g.1 = false →
      (g.1, "_manifest.json") ∈ (runCategories benv fs true groups stats ws).2 := by
  intro groups
  induction groups with
  | nil =>
      intro stats ws g hg _
      exact absurd hg (List.not_mem_nil g)
  | cons g0 rest ih =>
      intro stats ws g hg hm
      rcases List.mem_cons.1 hg with heq | hg2
      · subst heq
        obtain ⟨category, cat_targets⟩ := g
        have hred : runCategories benv fs true ((category, cat_targets) :: rest) stats ws =
            runCategories benv fs true rest
              (generateCategory benv cat_targets stats).2
              (ws ++ saveCategoryWrites category (generateCategory benv cat_targets stats).1) := by
          simp only [Prod.fst] at hm
          simp [runCategories, generateCategory, hm]
        rw [hred]
        refine runCategories_ws_mono benv fs rest _ _ _ ?_
        exact List.mem_append.2 (Or.inr (saveCategoryWrites_manifest category _))
      · obtain ⟨category, cat_targets⟩ := g0
        by_cases hskip : fs.manifestExists category = true
        · have hred : runCategories benv fs true ((category, cat_targets) :: rest) stats ws =
              runCategories benv fs true rest
                { stats with skipped_categories := stats.skipped_categories + 1 } ws := by
            simp [runCategories, hskip]
          rw [hred]
          exact ih _ _ g hg2 hm
        · have hskip2 : fs.manifestExists category = false := by
            cases hb : fs.manifestExists category
            · rfl
            · exact absurd hb hskip
          have hred : runCategories benv fs true ((category, cat_targets) :: rest) stats ws =
              runCategories benv fs true rest
                (generateCategory benv cat_targets stats).2
                (ws ++ saveCategoryWrites category (generateCategory benv cat_targets stats).1) := by
            simp [runCategories, generateCategory, hskip2]
          rw [hred]
          exact ih _ _ g hg2 hm

-- ──────────────────────────────────────────────────────────────
-- Claim C9
-- ──────────────────────────────────────────────────────────────

/-- C9: with `resume=true`, a category whose `_manifest.json` exists is
skipped — no file in its directory is written and the skipped counter
counts exactly the manifest-bearing discovered categories — and manifest
presence is the sole criterion: every discovered category without a
manifest is processed normally, ending with its manifest write. -/
theorem c9_resume_skip (benv : BatchEnv) (store : CTIStore) (fs : BatchFS)
    (categories : Option (List String)) :
    (∀ w ∈ (runBatch benv store fs categories true false).2,
        fs.manifestExists w.1 = false) ∧
    ((runBatch benv store fs categories true false).1.skipped_categories =
      (groupByCategory (discoverTargets store categories)).countP
        (fun g => fs.manifestExists g.1)) ∧
    (∀ g ∈ groupByCategory (discoverTargets store categories),
        fs.manifestExists g.1 = false →
        (g.1, "_manifest.json") ∈ (runBatch benv store fs categories true false).2) := by
  have hrun : runBatch benv store fs categories true false =
      runCategories benv fs true
        (groupByCategory (discoverTargets store categories))
        { total_targets := (discoverTargets store categories).length } [] := by
    simp [runBatch]
  refine ⟨?_, ?_, ?_⟩
  · intro w hw
    rw [hrun] at hw
    rcases runCategories_writes_src benv fs _ _ _ w hw with h1 | ⟨g, _, he, hm⟩
    · exact absurd h1 (List.not_mem_nil w)
    · rw [← he]
      exact hm
  · rw [hrun, runCategories_skipped_count]
    simp
  · intro g hg hm
    rw [hrun]
    exact runCategories_manifest_written benv fs _ _ _ g hg hm

/-- Witness for C9: on an empty file system the concrete category is
processed and its manifest written. -/
theorem c9_resume_skip_witness :
    (groupHeadA.1, "_manifest.json") ∈
      (runBatch batchEnvOk storeA fsEmpty (some ["credential_access"]) true false).2 :=
  (c9_resume_skip batchEnvOk storeA fsEmpty (some ["credential_access"])).2.2
    groupHeadA (headD_mem_of_ne_nil _ ("", []) (by decide)) rfl

end AdvSim
